import Mathlib

/-!
Verification development for the `mango` repository: a bundle of standalone
Python scripts that perform regex-based static analysis and in-place text
substitution over a Swift codebase.  Each script is shallowly embedded here:
filesystem contents become explicit data (association lists from path to
content, or rose trees for directory walks), fallible I/O becomes
`Except`-valued functions, and the regex predicates that only gate whether a
record is appended are abstracted as boolean-valued parameters where the
claims under study do not depend on the particular regular expression.
-/

namespace Mango

/-- Equality-based prefix test on character lists. -/
def listPrefixOf : List Char → List Char → Bool
  | [], _ => true
  | _ :: _, [] => false
  | a :: as, b :: bs => a == b && listPrefixOf as bs

/-- Infix test on character lists, scanning every suffix. -/
def listInfix (needle : List Char) : List Char → Bool
  | [] => listPrefixOf needle []
  | b :: bs => listPrefixOf needle (b :: bs) || listInfix needle bs

/-- Membership of one string inside another, the embedding of Python's
`needle in haystack` substring test. -/
def containsSub (haystack needle : String) : Bool :=
  listInfix needle.toList haystack.toList

/-- Embedding of Python's `str.startswith`. -/
def pyStartsWith (s pre : String) : Bool :=
  listPrefixOf pre.toList s.toList

/-- Embedding of Python's `str.endswith`. -/
def pyEndsWith (s suf : String) : Bool :=
  listPrefixOf suf.toList.reverse s.toList.reverse

/-- Embedding of Python's `str.strip()` (whitespace removal at both
ends). -/
def pyStrip (s : String) : String :=
  String.mk (((s.toList.dropWhile Char.isWhitespace).reverse.dropWhile
    Char.isWhitespace).reverse)

/-- Splitting on a single character, the embedding of Python's
`content.split(sep)` for a one-character separator. -/
def splitOnChar (sep : Char) : List Char → List String
  | [] => [""]
  | c :: cs =>
    let rest := splitOnChar sep cs
    if c == sep then "" :: rest
    else
      match rest with
      | [] => [String.mk [c]]
      | r :: rs => String.mk (c :: r.toList) :: rs

/-- Embedding of `content.split('\n')`. -/
def pySplitLines (content : String) : List String :=
  splitOnChar (Char.ofNat 10) content.toList

/-- Association-list lookup returning the mapped list or the empty list,
the embedding of Python's `dependencies.get(node, set())` (and of
`defaultdict(set)` reads) over a graph represented as an association list
from a node name to the list of its dependency targets. -/
def depsGet (g : List (String × List String)) (n : String) : List String :=
  match g.find? (fun p => p.1 == n) with
  | some p => p.2
  | none => []

/-- A filesystem snapshot for the scripts' sequential file I/O: a list of
paths paired with `some content` for a readable file or `none` for a file
whose `open`/`read` raises (unreadable or undecodable). -/
abbrev FileSys : Type := List (String × Option String)

/-- Embedding of `open(path).read()`: returns the content, or the exception
(`Except.error`) Python raises for an unreadable, undecodable or missing
file. -/
def readFile (fs : FileSys) (p : String) : Except String String :=
  match fs.find? (fun e => e.1 == p) with
  | some (_, some c) => .ok c
  | some (_, none) => .error ("I/O error reading " ++ p)
  | none => .error ("no such file " ++ p)

namespace AnalyzeCircularDeps
/-
Embedding of src/analyze_circular_deps.py (underscore variant).
-/

/-- Loop body of `find_cycles_from` (analyze_circular_deps.py, lines 121-135):
iterates over `dependencies.get(current, set())`.  The source mutates the
`visited` set in place inside the loop (`visited.add(next_node)`) before
recursing on `visited.copy()`, so later iterations of the same loop see the
nodes added by earlier iterations; the recursion into an unvisited
`next_node` re-enters the body of `find_cycles_from` for that node, which
first re-checks the `len(path) > 10` depth guard. -/
def findCyclesFromGo (g : List (String × List String)) (start : String)
    (path visited : List String) : List String → List (List String)
  | [] => []
  | next_node :: rest =>
    if next_node = start ∧ 2 < path.length then
      (path ++ [next_node]) :: findCyclesFromGo g start path visited rest
    else if next_node ∈ visited then
      findCyclesFromGo g start path visited rest
    else
      (if 10 < (path ++ [next_node]).length then []
       else findCyclesFromGo g start (path ++ [next_node])
              (next_node :: visited) (depsGet g next_node)) ++
      findCyclesFromGo g start path (next_node :: visited) rest
termination_by l => (11 - path.length, l.length)
decreasing_by
  · simp_all [List.length_append]
    omega
  · exact Prod.Lex.right _ (by simp)
  · simp_all [List.length_append]
    omega
  · exact Prod.Lex.right _ (by simp)

/-- Embedding of `find_cycles_from(start, current, path, visited)` from
analyze_circular_deps.py: returns `[]` as soon as the accumulated path
exceeds length 10, otherwise scans the dependency targets of `current`. -/
def find_cycles_from (g : List (String × List String)) (start current : String)
    (path visited : List String) : List (List String) :=
  if 10 < path.length then []
  else findCyclesFromGo g start path visited (depsGet g current)

end AnalyzeCircularDeps

namespace AnalyzeDependenciesAdvanced
/-
Embedding of src/analyze_dependencies_advanced.py.
-/

/-- Loop body of `find_cycles` (analyze_dependencies_advanced.py, lines
103-116): iterates over `dependencies.get(current, [])`, following only the
dependencies that are keys of `manager_files` (`mf` here).  In the source the
recursive call re-enters `find_cycles`, whose entry checks are inlined here:
a revisit of `start` with a path longer than one returns that path as a
cycle, any other revisit or a path longer than 10 returns no cycles, and
otherwise the dependency's own targets are scanned with the dependency added
to the visited set (`visited.add(current)` before the loop, each recursive
call receiving `visited.copy()`). -/
def findCyclesGo (g : List (String × List String)) (mf : List String)
    (start : String) (path visited : List String) :
    List String → List (List String)
  | [] => []
  | dep :: rest =>
    (if dep ∈ mf then
       (if dep ∈ visited ∧ dep = start ∧ 1 < (path ++ [dep]).length then
          [path ++ [dep]]
        else if dep ∈ visited ∨ 10 < (path ++ [dep]).length then []
        else findCyclesGo g mf start (path ++ [dep]) (dep :: visited)
               (depsGet g dep))
     else []) ++
    findCyclesGo g mf start path visited rest
termination_by l => (11 - path.length, l.length)
decreasing_by
  · simp_all [List.length_append]
    omega
  · exact Prod.Lex.right _ (by simp)

/-- Embedding of `find_cycles(start, current, path, visited)` from
analyze_dependencies_advanced.py: a revisit of `start` on a non-trivial path
returns that path as a cycle, any other revisit or a path longer than 10
stops, and otherwise the current node is marked visited and its dependency
targets are scanned. -/
def find_cycles (g : List (String × List String)) (mf : List String)
    (start current : String) (path visited : List String) :
    List (List String) :=
  if current ∈ visited ∧ current = start ∧ 1 < path.length then [path]
  else if current ∈ visited ∨ 10 < path.length then []
  else findCyclesGo g mf start path (current :: visited) (depsGet g current)

end AnalyzeDependenciesAdvanced

namespace AnalyzeCircularDeps

/-- Every cycle collected by the loop of `find_cycles_from` extends the
current path (which starts at the start node and has length at most 10) by
one final occurrence of the start node. -/
theorem findCyclesFromGo_shape (g : List (String × List String))
    (start : String) :
    ∀ (path visited l : List String), path.length ≤ 10 →
      path.head? = some start →
      ∀ c ∈ findCyclesFromGo g start path visited l,
        c.length ≤ 11 ∧ c.head? = some start ∧ c.getLast? = some start := by
  intro path visited l
  induction path, visited, l using findCyclesFromGo.induct g start with
  | case1 path visited =>
    intro _ _ c hc
    simp [findCyclesFromGo] at hc
  | case2 path visited next rest hcond ih =>
    intro hlen hhead c hc
    rw [findCyclesFromGo, if_pos hcond] at hc
    rcases List.mem_cons.mp hc with hc | hc
    · subst hc
      obtain ⟨hstart, _⟩ := hcond
      subst hstart
      rcases path with _ | ⟨a, t⟩
      · simp at hhead
      · simp at hhead
        subst hhead
        refine ⟨?_, by simp, ?_⟩
        · simp only [List.length_append, List.length_cons, List.length_nil]
          simp only [List.length_cons] at hlen
          omega
        · rw [List.getLast?_concat]
    · exact ih hlen hhead c hc
  | case3 path visited next rest hcond hmem ih =>
    intro hlen hhead c hc
    rw [findCyclesFromGo, if_neg hcond, if_pos hmem] at hc
    exact ih hlen hhead c hc
  | case4 path visited next rest hcond hmem ihchild ihrest =>
    intro hlen hhead c hc
    rw [findCyclesFromGo, if_neg hcond, if_neg hmem] at hc
    by_cases hdeep : 10 < (path ++ [next]).length
    · rw [if_pos hdeep] at hc
      simp only [List.nil_append] at hc
      exact ihrest hlen hhead c hc
    · rw [if_neg hdeep] at hc
      rcases List.mem_append.mp hc with hc | hc
      · have hlen' : (path ++ [next]).length ≤ 10 := by omega
        have hhead' : (path ++ [next]).head? = some start := by
          rcases path with _ | ⟨a, t⟩
          · simp at hhead
          · simpa using hhead
        exact ihchild hdeep hlen' hhead' c hc
      · exact ihrest hlen hhead c hc

end AnalyzeCircularDeps

namespace AnalyzeDependenciesAdvanced

/-- Every cycle collected by the loop of `find_cycles` extends the current
path (which starts at the start node and has length at most 10) by one final
occurrence of the start node. -/
theorem findCyclesGo_shape (g : List (String × List String))
    (mf : List String) (start : String) :
    ∀ (path visited l : List String), path.length ≤ 10 →
      path.head? = some start →
      ∀ c ∈ findCyclesGo g mf start path visited l,
        c.length ≤ 11 ∧ c.head? = some start ∧ c.getLast? = some start := by
  intro path visited l
  induction path, visited, l using findCyclesGo.induct g mf start with
  | case1 path visited =>
    intro _ _ c hc
    simp [findCyclesGo] at hc
  | case2 path visited dep rest ihchild ihrest =>
    intro hlen hhead c hc
    rw [findCyclesGo] at hc
    rcases List.mem_append.mp hc with hc | hc
    · by_cases hmf : dep ∈ mf
      · rw [if_pos hmf] at hc
        by_cases hcyc : dep ∈ visited ∧ dep = start ∧ 1 < (path ++ [dep]).length
        · rw [if_pos hcyc] at hc
          simp only [List.mem_singleton] at hc
          subst hc
          obtain ⟨-, hstart, -⟩ := hcyc
          subst hstart
          rcases path with _ | ⟨a, t⟩
          · simp at hhead
          · simp only [List.head?_cons, Option.some.injEq] at hhead
            subst hhead
            refine ⟨?_, by simp, ?_⟩
            · simp only [List.length_append, List.length_cons, List.length_nil]
              simp only [List.length_cons] at hlen
              omega
            · rw [List.getLast?_concat]
        · rw [if_neg hcyc] at hc
          by_cases hstop : dep ∈ visited ∨ 10 < (path ++ [dep]).length
          · rw [if_pos hstop] at hc
            simp at hc
          · rw [if_neg hstop] at hc
            have hlen' : (path ++ [dep]).length ≤ 10 := by
              push_neg at hstop
              omega
            have hhead' : (path ++ [dep]).head? = some start := by
              rcases path with _ | ⟨a, t⟩
              · simp at hhead
              · simpa using hhead
            exact ihchild hstop hlen' hhead' c hc
      · rw [if_neg hmf] at hc
        simp at hc
    · exact ihrest hlen hhead c hc

end AnalyzeDependenciesAdvanced

/-- C4: the cycle-detection routines are depth-bounded depth-first searches
and total: `find_cycles_from` in analyze_circular_deps.py and `find_cycles`
in analyze_dependencies_advanced.py are embedded above as total Lean
functions over an arbitrary finite dependency graph (termination certified
by the path-length bound 10 together with the strictly shrinking sibling
worklist), and, invoked as the scripts invoke them (on the initial path
`[start]`), every returned cycle has length at most 11 and starts and ends
at the start node. -/
theorem C4_cycle_detection_depth_bounded
    (g : List (String × List String)) (mf : List String) (start : String)
    (c : List String) :
    (c ∈ AnalyzeCircularDeps.find_cycles_from g start start [start] [start] →
      c.length ≤ 11 ∧ c.head? = some start ∧ c.getLast? = some start) ∧
    (c ∈ AnalyzeDependenciesAdvanced.find_cycles g mf start start [start] [] →
      c.length ≤ 11 ∧ c.head? = some start ∧ c.getLast? = some start) := by
  constructor
  · intro hc
    rw [AnalyzeCircularDeps.find_cycles_from, if_neg (by simp)] at hc
    exact AnalyzeCircularDeps.findCyclesFromGo_shape g start [start] [start] _
      (by simp) (by simp) c hc
  · intro hc
    rw [AnalyzeDependenciesAdvanced.find_cycles, if_neg (by simp),
      if_neg (by simp)] at hc
    exact AnalyzeDependenciesAdvanced.findCyclesGo_shape g mf start [start]
      [start] _ (by simp) (by simp) c hc

/-- Witness for C4: on the three-node graph A -> B -> C -> A both routines
actually return the cycle [A, B, C, A], and the theorem applies to it. -/
theorem C4_cycle_detection_depth_bounded_witness :
    (["A", "B", "C", "A"] ∈ AnalyzeCircularDeps.find_cycles_from
        [("A", ["B"]), ("B", ["C"]), ("C", ["A"])] "A" "A" ["A"] ["A"]) ∧
    (["A", "B", "C", "A"] ∈ AnalyzeDependenciesAdvanced.find_cycles
        [("A", ["B"]), ("B", ["C"]), ("C", ["A"])] ["A", "B", "C"]
        "A" "A" ["A"] []) ∧
    (["A", "B", "C", "A"] : List String).length ≤ 11 ∧
    (["A", "B", "C", "A"] : List String).head? = some "A" ∧
    (["A", "B", "C", "A"] : List String).getLast? = some "A" := by
  have hmem1 : ["A", "B", "C", "A"] ∈ AnalyzeCircularDeps.find_cycles_from
      [("A", ["B"]), ("B", ["C"]), ("C", ["A"])] "A" "A" ["A"] ["A"] := by
    simp [AnalyzeCircularDeps.find_cycles_from,
      AnalyzeCircularDeps.findCyclesFromGo, depsGet]
  have hmem2 : ["A", "B", "C", "A"] ∈ AnalyzeDependenciesAdvanced.find_cycles
      [("A", ["B"]), ("B", ["C"]), ("C", ["A"])] ["A", "B", "C"]
      "A" "A" ["A"] [] := by
    simp [AnalyzeDependenciesAdvanced.find_cycles,
      AnalyzeDependenciesAdvanced.findCyclesGo, depsGet]
  refine ⟨hmem1, hmem2, ?_⟩
  exact (C4_cycle_detection_depth_bounded
    [("A", ["B"]), ("B", ["C"]), ("C", ["A"])] ["A", "B", "C"] "A"
    ["A", "B", "C", "A"]).1 hmem1

namespace CheckForceUnwrap
/-
Embedding of src/check-force-unwrap.py.
-/

/-- The three regular expressions of `find_force_unwraps` whose match
results only gate which issue type is recorded; the claims under study do
not depend on the particular regular expression, so they are abstracted as
boolean-valued predicates on the line. -/
structure Regexes where
  bangNotCmp : String → Bool
  iuoDecl : String → Bool
  forceUse : String → Bool

/-- One recorded issue of check-force-unwrap.py: line number, issue type
and stripped line content. -/
structure Issue where
  line : Nat
  issueType : String
  content : String
deriving DecidableEq

/-- Per-line body of the loop of `find_force_unwraps` (lines 17-54):
comment lines are skipped, otherwise the force-unwrap, force-cast and
force-try checks may each append an issue carrying the 1-based line
number. -/
def find_force_unwraps_line (rx : Regexes) (line_num : Nat) (line : String) :
    List Issue :=
  if (pyStartsWith (pyStrip line) "//" ∨ pyStartsWith (pyStrip line) "///") then []
  else
    (if rx.bangNotCmp line then
       if rx.iuoDecl line then
         [⟨line_num, "implicitly_unwrapped_optional", pyStrip line⟩]
       else if rx.forceUse line then
         [⟨line_num, "force_unwrap", pyStrip line⟩]
       else []
     else []) ++
    (if containsSub line " as! " then [⟨line_num, "force_cast", pyStrip line⟩]
     else []) ++
    (if containsSub line "try!" then [⟨line_num, "force_try", pyStrip line⟩]
     else [])

/-- The `enumerate(lines, 1)` loop of `find_force_unwraps`. -/
def scanLinesFrom (rx : Regexes) : Nat → List String → List Issue
  | _, [] => []
  | n, line :: rest =>
    find_force_unwraps_line rx n line ++ scanLinesFrom rx (n + 1) rest

/-- Embedding of `find_force_unwraps(file_path)` (lines 10-56).  The
function opens the file WITHOUT any exception handler, so a read failure is
the `Except.error` case and propagates to the caller. -/
def find_force_unwraps (rx : Regexes) (fs : FileSys) (p : String) :
    Except String (List Issue) := do
  let content ← readFile fs p
  return scanLinesFrom rx 1 (pySplitLines content)

/-- The directory-skip test of `scan_project` (line 64): the walk skips a
root directory whose path contains one of the excluded fragments. -/
def skipRoot (p : String) : Bool :=
  containsSub p ".build" ∨ containsSub p "DerivedData" ∨
  containsSub p ".git" ∨ containsSub p "Pods"

/-- The enumeration loop of `scan_project` (lines 62-74) over the walked
files: each `.swift` file outside the skipped directories is handed to
`find_force_unwraps`, whose result is awaited WITHOUT a surrounding
`try`/`except`, so the first failing file aborts the whole loop. -/
def scanProjectGo (rx : Regexes) (fs : FileSys) :
    List (String × Option String) →
    Except String (List (String × List Issue))
  | [] => .ok []
  | (p, _) :: rest =>
    if skipRoot p then scanProjectGo rx fs rest
    else if pyEndsWith p ".swift" then do
      let issues ← find_force_unwraps rx fs p
      let tail ← scanProjectGo rx fs rest
      return (if issues.isEmpty then tail else (p, issues) :: tail)
    else scanProjectGo rx fs rest

/-- Embedding of `scan_project(root_dir)` (lines 58-74), enumerating the
files of the snapshot. -/
def scan_project (rx : Regexes) (fs : FileSys) :
    Except String (List (String × List Issue)) :=
  scanProjectGo rx fs fs

end CheckForceUnwrap

namespace CheckOnchangeUsage
/-
Embedding of src/check-onchange-usage.py.
-/

/-- The two `.onChange` regular expressions of `check_onchange_usage`,
abstracted as boolean-valued predicates (the claims under study do not
depend on the particular pattern). -/
structure Regexes where
  deprecated : String → Bool
  modern : String → Bool

/-- Classification of a single line of `check_onchange_usage` (lines
19-41): a line mentioning `.onChange` is classified by the modern then the
deprecated pattern, and otherwise by the patterns applied to the join of
the line together with up to four following lines, defaulting to
`unknown`. -/
def classifyLine (rx : Regexes) (line : String) (suffix : List String) :
    Option (String × String) :=
  if containsSub line ".onChange" then
    if rx.modern line then some (pyStrip line, "modern")
    else if rx.deprecated line then some (pyStrip line, "deprecated")
    else
      let full_text := String.intercalate "\n" (suffix.take 5)
      if rx.modern full_text then some (pyStrip line, "modern")
      else if rx.deprecated full_text then some (pyStrip line, "deprecated")
      else some (pyStrip line, "unknown")
  else none

/-- The `enumerate(lines, 1)` loop of `check_onchange_usage`. -/
def classifyFrom (rx : Regexes) : Nat → List String → List (Nat × String × String)
  | _, [] => []
  | n, line :: rest =>
    (match classifyLine rx line (line :: rest) with
     | some (t, k) => [(n, t, k)]
     | none => []) ++ classifyFrom rx (n + 1) rest

/-- Embedding of `check_onchange_usage(file_path)` (lines 8-43).  The file
is opened WITHOUT any exception handler, so a read failure propagates to
the caller as the `Except.error` case. -/
def check_onchange_usage (rx : Regexes) (fs : FileSys) (p : String) :
    Except String (List (Nat × String × String)) := do
  let content ← readFile fs p
  return classifyFrom rx 1 (pySplitLines content)

/-- The per-file enumeration loop of `main` (lines 53-67): each `.swift`
file outside `.build`/`DerivedData` is handed to `check_onchange_usage`
WITHOUT a surrounding `try`/`except` and sorted into the deprecated,
unknown or modern bucket. -/
def mainGo (rx : Regexes) (fs : FileSys) :
    List (String × Option String) →
    Except String (List (String × String))
  | [] => .ok []
  | (p, _) :: rest =>
    if containsSub p ".build" ∨ containsSub p "DerivedData" then
      mainGo rx fs rest
    else if pyEndsWith p ".swift" then do
      let results ← check_onchange_usage rx fs p
      let tail ← mainGo rx fs rest
      let bucket :=
        if results.isEmpty then []
        else if results.any (fun r => r.2.2 == "deprecated") then
          [(p, "deprecated")]
        else if results.any (fun r => r.2.2 == "unknown") then
          [(p, "unknown")]
        else [(p, "modern")]
      return bucket ++ tail
    else mainGo rx fs rest

/-- The file-bucketing portion of `main`, enumerating the snapshot. -/
def mainBuckets (rx : Regexes) (fs : FileSys) :
    Except String (List (String × String)) :=
  mainGo rx fs fs

end CheckOnchangeUsage

namespace AnalyzeForceUnwrapping
/-
Embedding of src/analyze-force-unwrapping.py.
-/

/-- The regular expressions of `find_force_unwrapping`: the disjunction of
the nine exclude patterns, and the flattened `(pattern_type, match text)`
sequence produced by iterating the seven force-unwrap patterns over a line;
both abstracted since the claims under study do not depend on the
particular pattern. -/
structure Regexes where
  excludeAny : String → Bool
  matchesOf : String → List (String × String)

/-- One violation record of analyze-force-unwrapping.py. -/
structure Violation where
  line : Nat
  vtype : String
  code : String
  matched : String
deriving DecidableEq

/-- The `enumerate(lines, 1)` loop of `find_force_unwrapping`. -/
def scanFrom (rx : Regexes) : Nat → List String → List Violation
  | _, [] => []
  | n, line :: rest =>
    (if rx.excludeAny line then []
     else (rx.matchesOf line).map (fun m => ⟨n, m.1, pyStrip line, m.2⟩)) ++
    scanFrom rx (n + 1) rest

/-- Embedding of `find_force_unwrapping(file_path)` (lines 7-59).  The
whole body is wrapped in `try`/`except`, the handler prints the error, and
the `violations` list accumulated before the exception — empty, since only
the initial read can raise here — is returned, so a read failure yields
`[]` and never propagates: the function takes the read result rather than
the path. -/
def find_force_unwrapping (rx : Regexes) (readResult : Except String String) :
    List Violation :=
  match readResult with
  | .error _ => []
  | .ok content => scanFrom rx 1 (pySplitLines content)

end AnalyzeForceUnwrapping

/-- C1 counterexample: the claim that the per-file step of every script is
wrapped in a broad exception handler fails for check-force-unwrap.py and
check-onchange-usage.py: on a snapshot holding a single unreadable
`A.swift`, `scan_project` and the bucketing loop of check-onchange-usage's
`main` both surface the read failure as an uncaught exception
(`Except.error`) instead of skipping the file and continuing. -/
theorem C1_per_file_exception_handling_counterexample :
    CheckForceUnwrap.scan_project
        ⟨fun _ => false, fun _ => false, fun _ => false⟩
        [("A.swift", none)] = .error "I/O error reading A.swift" ∧
    CheckOnchangeUsage.mainBuckets ⟨fun _ => false, fun _ => false⟩
        [("A.swift", none)] = .error "I/O error reading A.swift" := by
  exact ⟨rfl, rfl⟩

/-- In check-force-unwrap.py, a failing read surfaces as an exception of
`find_force_unwraps` itself. -/
theorem find_force_unwraps_propagates (rx : CheckForceUnwrap.Regexes)
    (fs : FileSys) (p e : String) (h : readFile fs p = .error e) :
    CheckForceUnwrap.find_force_unwraps rx fs p = .error e := by
  simp [CheckForceUnwrap.find_force_unwraps, h]

/-- In check-onchange-usage.py, a failing read surfaces as an exception of
`check_onchange_usage` itself. -/
theorem check_onchange_usage_propagates (rx : CheckOnchangeUsage.Regexes)
    (fs : FileSys) (p e : String) (h : readFile fs p = .error e) :
    CheckOnchangeUsage.check_onchange_usage rx fs p = .error e := by
  simp [CheckOnchangeUsage.check_onchange_usage, h]

/-- A failing eligible file makes the whole `scan_project` enumeration
fail. -/
theorem scanProjectGo_propagates (rx : CheckForceUnwrap.Regexes)
    (fs : FileSys) :
    ∀ (l : List (String × Option String)) (p : String) (c : Option String),
      (p, c) ∈ l → CheckForceUnwrap.skipRoot p = false →
      pyEndsWith p ".swift" = true →
      (CheckForceUnwrap.find_force_unwraps rx fs p).isOk = false →
      (CheckForceUnwrap.scanProjectGo rx fs l).isOk = false := by
  intro l
  induction l with
  | nil => intro p c h; simp at h
  | cons hd tl ih =>
    obtain ⟨q, c'⟩ := hd
    intro p c hmem hskip hswift hbad
    rcases List.mem_cons.mp hmem with heq | hmem'
    · rw [Prod.mk.injEq] at heq
      obtain ⟨rfl, rfl⟩ := heq
      rw [CheckForceUnwrap.scanProjectGo]
      rw [if_neg (by simp [hskip]), if_pos hswift]
      rcases hfind : CheckForceUnwrap.find_force_unwraps rx fs p with e | v
      · rfl
      · rw [hfind] at hbad
        simp [Except.isOk, Except.toBool] at hbad
    · rw [CheckForceUnwrap.scanProjectGo]
      by_cases hq : CheckForceUnwrap.skipRoot q
      · rw [if_pos hq]
        exact ih p c hmem' hskip hswift hbad
      · rw [if_neg hq]
        by_cases hqs : pyEndsWith q ".swift"
        · rw [if_pos hqs]
          rcases hfind : CheckForceUnwrap.find_force_unwraps rx fs q with e | v
          · rfl
          · have htl := ih p c hmem' hskip hswift hbad
            rcases htail : CheckForceUnwrap.scanProjectGo rx fs tl with e | w
            · rfl
            · rw [htail] at htl
              simp [Except.isOk, Except.toBool] at htl
        · rw [if_neg hqs]
          exact ih p c hmem' hskip hswift hbad

/-- A failing eligible file makes the whole bucketing loop of
check-onchange-usage's `main` fail. -/
theorem mainGo_propagates (rx : CheckOnchangeUsage.Regexes) (fs : FileSys) :
    ∀ (l : List (String × Option String)) (p : String) (c : Option String),
      (p, c) ∈ l →
      containsSub p ".build" = false → containsSub p "DerivedData" = false →
      pyEndsWith p ".swift" = true →
      (CheckOnchangeUsage.check_onchange_usage rx fs p).isOk = false →
      (CheckOnchangeUsage.mainGo rx fs l).isOk = false := by
  intro l
  induction l with
  | nil => intro p c h; simp at h
  | cons hd tl ih =>
    obtain ⟨q, c'⟩ := hd
    intro p c hmem hskip1 hskip2 hswift hbad
    rcases List.mem_cons.mp hmem with heq | hmem'
    · rw [Prod.mk.injEq] at heq
      obtain ⟨rfl, rfl⟩ := heq
      rw [CheckOnchangeUsage.mainGo]
      rw [if_neg (by simp [hskip1, hskip2]), if_pos hswift]
      rcases hfind : CheckOnchangeUsage.check_onchange_usage rx fs p with e | v
      · rfl
      · rw [hfind] at hbad
        simp [Except.isOk, Except.toBool] at hbad
    · rw [CheckOnchangeUsage.mainGo]
      by_cases hq : containsSub q ".build" ∨ containsSub q "DerivedData"
      · rw [if_pos hq]
        exact ih p c hmem' hskip1 hskip2 hswift hbad
      · rw [if_neg hq]
        by_cases hqs : pyEndsWith q ".swift"
        · rw [if_pos hqs]
          rcases hfind : CheckOnchangeUsage.check_onchange_usage rx fs q
            with e | v
          · rfl
          · have htl := ih p c hmem' hskip1 hskip2 hswift hbad
            rcases htail : CheckOnchangeUsage.mainGo rx fs tl with e | w
            · rfl
            · rw [htail] at htl
              simp [Except.isOk, Except.toBool] at htl
        · rw [if_neg hqs]
          exact ih p c hmem' hskip1 hskip2 hswift hbad

/-- C1 (amended): the uniform catch-and-continue policy holds for the
scripts that wrap their per-file step (for instance
analyze-force-unwrapping.py, whose `find_force_unwrapping` turns a read
failure into an empty violation list), but NOT for check-force-unwrap.py or
check-onchange-usage.py: their per-file functions have no exception
handler, so a read failure on one eligible file propagates out of the
per-file call and aborts the whole enumeration loop of `scan_project`
respectively of `main`. -/
theorem C1_per_file_exception_handling
    (rx : CheckForceUnwrap.Regexes) (orx : CheckOnchangeUsage.Regexes)
    (arx : AnalyzeForceUnwrapping.Regexes)
    (fs : FileSys) (p : String) (c : Option String) (e : String) :
    (readFile fs p = .error e →
      CheckForceUnwrap.find_force_unwraps rx fs p = .error e ∧
      CheckOnchangeUsage.check_onchange_usage orx fs p = .error e ∧
      AnalyzeForceUnwrapping.find_force_unwrapping arx (.error e) = []) ∧
    ((p, c) ∈ fs → CheckForceUnwrap.skipRoot p = false →
      pyEndsWith p ".swift" = true →
      (CheckForceUnwrap.find_force_unwraps rx fs p).isOk = false →
      (CheckForceUnwrap.scan_project rx fs).isOk = false) ∧
    ((p, c) ∈ fs →
      containsSub p ".build" = false → containsSub p "DerivedData" = false →
      pyEndsWith p ".swift" = true →
      (CheckOnchangeUsage.check_onchange_usage orx fs p).isOk = false →
      (CheckOnchangeUsage.mainBuckets orx fs).isOk = false) := by
  refine ⟨fun h => ⟨?_, ?_, rfl⟩, fun h1 h2 h3 h4 => ?_,
    fun h1 h2a h2b h3 h4 => ?_⟩
  · exact find_force_unwraps_propagates rx fs p e h
  · exact check_onchange_usage_propagates orx fs p e h
  · exact scanProjectGo_propagates rx fs fs p c h1 h2 h3 h4
  · exact mainGo_propagates orx fs fs p c h1 h2a h2b h3 h4

/-- Witness for C1: on a snapshot with one unreadable `A.swift`, the
amended theorem concretely yields the propagated errors and the aborted
enumerations, together with the caught error of
analyze-force-unwrapping.py. -/
theorem C1_per_file_exception_handling_witness :
    (readFile [("A.swift", none)] "A.swift" =
      .error "I/O error reading A.swift") ∧
    (CheckForceUnwrap.find_force_unwraps
        ⟨fun _ => false, fun _ => false, fun _ => false⟩
        [("A.swift", none)] "A.swift" =
      .error "I/O error reading A.swift") ∧
    (CheckOnchangeUsage.check_onchange_usage ⟨fun _ => false, fun _ => false⟩
        [("A.swift", none)] "A.swift" =
      .error "I/O error reading A.swift") ∧
    (AnalyzeForceUnwrapping.find_force_unwrapping
        ⟨fun _ => false, fun _ => []⟩
        (.error "I/O error reading A.swift") = []) ∧
    ((CheckForceUnwrap.scan_project
        ⟨fun _ => false, fun _ => false, fun _ => false⟩
        [("A.swift", none)]).isOk = false) ∧
    ((CheckOnchangeUsage.mainBuckets ⟨fun _ => false, fun _ => false⟩
        [("A.swift", none)]).isOk = false) := by
  have h := C1_per_file_exception_handling
    ⟨fun _ => false, fun _ => false, fun _ => false⟩
    ⟨fun _ => false, fun _ => false⟩ ⟨fun _ => false, fun _ => []⟩
    [("A.swift", none)] "A.swift" none "I/O error reading A.swift"
  obtain ⟨ha, hb, hc⟩ := h
  obtain ⟨ha1, ha2, ha3⟩ := ha rfl
  refine ⟨rfl, ha1, ha2, ha3, ?_, ?_⟩
  · exact hb (by simp) rfl rfl (by rw [ha1]; rfl)
  · exact hc (by simp) rfl rfl rfl (by rw [ha2]; rfl)

/-- The double-quote character. -/
def quoteChar : Char := Char.ofNat 34

/-- Characters of a line before the first `//`, the embedding of
`line[:line.index(chr(47) + chr(47))]` guarded by the substring test. -/
def beforeDoubleSlash : List Char → List Char
  | [] => []
  | c :: cs =>
    if listPrefixOf [Char.ofNat 47, Char.ofNat 47] (c :: cs) then []
    else c :: beforeDoubleSlash cs

/-- Embedding of the comment-stripping prelude used by several per-line
scans. -/
def commentStrip (line : String) : String :=
  String.mk (beforeDoubleSlash line.toList)

mutual

/-- Embedding of `re.findall` for the pattern matching a double-quoted
non-empty run of non-quote characters, outside-quote scanning state: a
quote opens a candidate match. -/
def findQuotedOut : List Char → List String
  | [] => []
  | c :: cs => if c == quoteChar then findQuotedIn [] cs else findQuotedOut cs

/-- Inside-quote scanning state of the quoted-string `re.findall`: `run`
holds the characters read since the opening quote.  A closing quote after a
non-empty run emits the match and resumes outside; a closing quote after an
empty run means the opening quote failed to match (the pattern requires a
non-empty run), so the regex engine advances and this quote becomes the new
opener; the end of the line inside a quote emits nothing. -/
def findQuotedIn (run : List Char) : List Char → List String
  | [] => []
  | c :: cs =>
    if c == quoteChar then
      if run.isEmpty then findQuotedIn [] cs
      else String.mk run :: findQuotedOut cs
    else findQuotedIn (run ++ [c]) cs

end

/-- Embedding of `re.findall` of the quoted-string pattern on a line. -/
def extractQuoted (line : String) : List String :=
  findQuotedOut line.toList

namespace CheckAllIssues
/-
Embedding of src/check-all-issues.py.
-/

/-- The regular expressions of `analyze_swift_files` that only gate whether
a record is appended, abstracted as predicates (the claims under study do
not depend on the particular pattern): the force-unwrap, force-cast,
force-try and the three hardcoded-style line patterns, plus the
object-navigation content match (returning the matched text) and the
ID-navigation content match. -/
structure Regexes where
  forceUnwrap : String → Bool
  forceCast : String → Bool
  forceTry : String → Bool
  colorStyle : String → Bool
  fontStyle : String → Bool
  spacingStyle : String → Bool
  objectNavMatch : String → Option String
  idNavMatch : String → Bool

/-- One issue record of check-all-issues.py: the category list it is
appended to, the file, the recorded line number (absent for `file_errors`
records, which carry no `line` key), and the severity label.  The
`code`/`string` payload fields are not modelled; no claim concerns them. -/
structure Rec where
  category : String
  file : String
  line : Option Nat
  severity : String
deriving DecidableEq

/-- The force-unwrap/cast/try per-line loop (lines 25-56): each line is
comment-stripped, and up to three records with the 1-based line number and
severity High are appended. -/
def forceScan (rx : Regexes) (f : String) : Nat → List String → List Rec
  | _, [] => []
  | i, line :: rest =>
    let l0 := commentStrip line
    (if rx.forceUnwrap l0 &&
        !(containsSub l0 "!=" || containsSub l0 "!!" ||
          containsSub l0 "try!" || containsSub l0 "as!") then
       [⟨"force_unwrapping", f, some i, "High"⟩] else []) ++
    (if rx.forceCast l0 then [⟨"force_cast", f, some i, "High"⟩] else []) ++
    (if rx.forceTry l0 then [⟨"force_try", f, some i, "High"⟩] else []) ++
    forceScan rx f (i + 1) rest

/-- The skip test of the hardcoded-strings loop (line 62). -/
def skipStringLine (line : String) : Bool :=
  pyStartsWith (pyStrip line) "import " || pyStartsWith (pyStrip line) "@" ||
  pyStartsWith (pyStrip line) "case " || pyStartsWith (pyStrip line) "#if" ||
  pyStartsWith (pyStrip line) "#else" || pyStartsWith (pyStrip line) "#endif"

/-- The user-facing-string filter (lines 69-72). -/
def isUserFacing (s : String) : Bool :=
  3 < s.length &&
  (containsSub s " " || pyEndsWith s ":" || pyEndsWith s "?" ||
    pyEndsWith s "!" || pyEndsWith s ".") &&
  !(s.toList.all fun ch =>
      ch.isAlphanum || ch == Char.ofNat 95 || ch == Char.ofNat 45 ||
      ch == Char.ofNat 46) &&
  !(pyStartsWith s "http" || pyStartsWith s "com." || pyStartsWith s "+1")

/-- The hardcoded-strings per-line loop (lines 60-80): every user-facing
quoted string of a non-skipped line yields a Medium record with the 1-based
line number. -/
def stringScan (f : String) : Nat → List String → List Rec
  | _, [] => []
  | i, line :: rest =>
    (if skipStringLine line then []
     else ((extractQuoted line).filter isUserFacing).map
       (fun _ => ⟨"hardcoded_string", f, some i, "Medium"⟩)) ++
    stringScan f (i + 1) rest

/-- The hardcoded-style per-line loop (lines 108-138): color (Medium), font
(Medium) and spacing (Low) records with the 1-based line number, each
suppressed for AppTheme files. -/
def styleScan (rx : Regexes) (f : String) : Nat → List String → List Rec
  | _, [] => []
  | i, line :: rest =>
    (if rx.colorStyle line && !containsSub f "AppTheme" then
       [⟨"hardcoded_style", f, some i, "Medium"⟩] else []) ++
    (if rx.fontStyle line && !containsSub f "AppTheme" then
       [⟨"hardcoded_style", f, some i, "Medium"⟩] else []) ++
    (if rx.spacingStyle line && !containsSub f "AppTheme" then
       [⟨"hardcoded_style", f, some i, "Low"⟩] else []) ++
    styleScan rx f (i + 1) rest

/-- The navigation-pattern check for DetailViews (lines 91-106): when the
object-navigation pattern matches and the ID pattern does not, the first
line containing the matched text yields one High record (then `break`). -/
def navRecs (rx : Regexes) (f content : String) (lines : List String) :
    List Rec :=
  if containsSub f "DetailView" then
    match rx.objectNavMatch content with
    | some m =>
      if rx.idNavMatch content then []
      else
        match lines.findIdx? (fun l => containsSub l m) with
        | some idx => [⟨"navigation_pattern", f, some (idx + 1), "High"⟩]
        | none => []
    | none => []
  else []

/-- The per-file body of `analyze_swift_files` inside the `try` (lines
17-138), over the file's read content; `relative_path` is modelled by the
path itself. -/
def analyze_file (rx : Regexes) (f content : String) : List Rec :=
  forceScan rx f 1 (pySplitLines content) ++
  (if !(containsSub f "AppStrings" || containsSub f "Configuration" ||
        containsSub f "AppTheme" || containsSub f "CommonStrings") then
     stringScan f 1 (pySplitLines content) else []) ++
  (if containsSub content "UIApplication" &&
      !containsSub content "import UIKit" then
     [⟨"missing_import", f, some 0, "High"⟩] else []) ++
  navRecs rx f content (pySplitLines content) ++
  styleScan rx f 1 (pySplitLines content)

/-- The file filter of `analyze_swift_files` (line 16). -/
def fileEligible (p : String) : Bool :=
  containsSub p "MedicationManager" &&
  !(containsSub p "Test" || containsSub p "Preview" ||
    containsSub p ".build")

/-- Embedding of `analyze_swift_files` (lines 8-147) over a filesystem
snapshot: each eligible `.swift` file is analyzed inside the `try`, and a
read failure is caught by the `except` block, which appends one Critical
`file_errors` record (carrying no line number) and continues.  (In the
source the handler reuses the stale `relative_path` of the previous
iteration for the file field; no claim concerns the file field.) -/
def analyze_swift_files (rx : Regexes) (fs : FileSys) : List Rec :=
  fs.flatMap fun e =>
    if pyEndsWith e.1 ".swift" && fileEligible e.1 then
      match e.2 with
      | some content => analyze_file rx e.1 content
      | none => [⟨"file_errors", e.1, none, "Critical"⟩]
    else []

end CheckAllIssues

namespace ComprehensiveAnalysis
/-
Embedding of src/comprehensive-analysis.py (the two checks the claims
quantify over).
-/

/-- One issue record appended by `add_issue` (lines 252-259). -/
structure CIssue where
  file : String
  line : Nat
  description : String
  severity : String
deriving DecidableEq

/-- Embedding of `check_missing_imports` (lines 197-208): both checks are
plain substring tests, and both append a High record with line number 0. -/
def check_missing_imports (file_path content : String) : List CIssue :=
  (if containsSub content "UIApplication" &&
      !containsSub content "import UIKit" then
     [⟨file_path, 0, "Uses UIApplication but missing \x27import UIKit\x27",
       "High"⟩] else []) ++
  (if (containsSub content "@Published" ||
       containsSub content "PassthroughSubject" ||
       containsSub content "CurrentValueSubject") &&
      !containsSub content "import Combine" then
     [⟨file_path, 0, "Uses Combine features but missing \x27import Combine\x27",
       "High"⟩] else [])

/-- Embedding of `check_empty_files` (lines 224-236): the comment-stripping
regexes are abstracted as the `stripComments` parameter; a file whose
stripped content is shorter than 100 characters with fewer than 5 non-blank
lines yields one Low record with line number 0. -/
def check_empty_files (stripComments : String → String)
    (file_path content : String) : List CIssue :=
  let code_content := pyStrip (stripComments content)
  if code_content.length < 100 then
    if ((pySplitLines code_content).filter
        (fun l => pyStrip l != "")).length < 5 then
      [⟨file_path, 0,
        "File appears to be empty or contains minimal implementation",
        "Low"⟩]
    else []
  else []

end ComprehensiveAnalysis

namespace CheckRuntimeSimulation
/-
Embedding of src/check-runtime-simulation.py (the checks of lines 39-109).
-/

/-- The regular expressions of the runtime-simulation checks that only gate
whether a record is appended: the collection-access pattern per line, and
the `(\w+)\[(\d+)\]` findall over the content with the captured index
already converted by `int` (the claims under study do not depend on the
particular pattern). -/
structure Regexes where
  collectionBang : String → Bool
  indexAccesses : String → List (String × Nat)

/-- One record appended by the runtime-simulation checks: file, optional
line number, issue text and (lowercase) severity label. -/
structure SimIssue where
  file : String
  line : Option Nat
  issue : String
  severity : String
deriving DecidableEq

/-- The per-line loop of `check_force_unwrap_scenarios` (lines 48-77):
`enumerate(lines)` is 0-based and each record stores `i + 1`. -/
def forceUnwrapScan (rx : Regexes) (f : String) :
    Nat → List String → List SimIssue
  | _, [] => []
  | i, line :: rest =>
    (if containsSub line "?." && containsSub line "!" then
       [⟨f, some (i + 1), "Force unwrap after optional chain", "high"⟩]
     else []) ++
    (if rx.collectionBang line then
       [⟨f, some (i + 1), "Force unwrap collection access", "critical"⟩]
     else []) ++
    (if containsSub line " as! " then
       [⟨f, some (i + 1), "Force cast", "high"⟩] else []) ++
    forceUnwrapScan rx f (i + 1) rest

/-- Embedding of `check_force_unwrap_scenarios` for one file (lines 39-79),
over the file's read result: the per-file body is wrapped in `try`/`except
pass`, so a read failure yields no records. -/
def check_force_unwrap_scenarios (rx : Regexes) (f : String)
    (r : Except String String) : List SimIssue :=
  match r with
  | .error _ => []
  | .ok content => forceUnwrapScan rx f 0 (pySplitLines content)

/-- Embedding of `check_array_bounds` for one file (lines 81-109): each
non-zero hardcoded index yields a medium record and a `.first!`/`.last!`
occurrence yields a high record, none carrying a line number; a read
failure yields no records. -/
def check_array_bounds (rx : Regexes) (f : String)
    (r : Except String String) : List SimIssue :=
  match r with
  | .error _ => []
  | .ok content =>
    (((rx.indexAccesses content).filter (fun p => 0 < p.2)).map fun p =>
      ⟨f, none,
        "Hard-coded array index [" ++ toString p.2 ++
          "] without bounds check", "medium"⟩) ++
    (if containsSub content ".first!" || containsSub content ".last!" then
       [⟨f, none, "Force unwrapping first/last on collection", "high"⟩]
     else [])

end CheckRuntimeSimulation

/-- Membership in a conditional singleton list forces equality. -/
theorem mem_ite_singleton {α : Type} {c : Prop} [Decidable c] {a b : α}
    (h : a ∈ (if c then [b] else [])) : a = b := by
  split at h
  · simpa using h
  · simp at h

namespace CheckAllIssues

/-- Records of the force-unwrap loop: category among the three force
categories, severity High, line at least the starting index. -/
theorem forceScan_inv (rx : Regexes) (f : String) :
    ∀ (n : Nat) (lines : List String) (r : Rec), r ∈ forceScan rx f n lines →
      (r.category = "force_unwrapping" ∨ r.category = "force_cast" ∨
        r.category = "force_try") ∧
      r.severity = "High" ∧ ∃ m, r.line = some m ∧ n ≤ m := by
  intro n lines
  induction lines generalizing n with
  | nil => intro r h; simp [forceScan] at h
  | cons line rest ih =>
    intro r h
    rw [forceScan] at h
    simp only [List.mem_append] at h
    rcases h with ((h | h) | h) | h
    · obtain rfl := mem_ite_singleton h
      exact ⟨Or.inl rfl, rfl, n, rfl, le_refl n⟩
    · obtain rfl := mem_ite_singleton h
      exact ⟨Or.inr (Or.inl rfl), rfl, n, rfl, le_refl n⟩
    · obtain rfl := mem_ite_singleton h
      exact ⟨Or.inr (Or.inr rfl), rfl, n, rfl, le_refl n⟩
    · obtain ⟨hcat, hsev, m, hline, hm⟩ := ih (n + 1) r h
      exact ⟨hcat, hsev, m, hline, by omega⟩

/-- Records of the hardcoded-strings loop: category hardcoded_string,
severity Medium, line at least the starting index. -/
theorem stringScan_inv (f : String) :
    ∀ (n : Nat) (lines : List String) (r : Rec), r ∈ stringScan f n lines →
      r.category = "hardcoded_string" ∧ r.severity = "Medium" ∧
      ∃ m, r.line = some m ∧ n ≤ m := by
  intro n lines
  induction lines generalizing n with
  | nil => intro r h; simp [stringScan] at h
  | cons line rest ih =>
    intro r h
    rw [stringScan] at h
    simp only [List.mem_append] at h
    rcases h with h | h
    · split at h
      · simp at h
      · obtain ⟨s, -, rfl⟩ := List.mem_map.mp h
        exact ⟨rfl, rfl, n, rfl, le_refl n⟩
    · obtain ⟨hcat, hsev, m, hline, hm⟩ := ih (n + 1) r h
      exact ⟨hcat, hsev, m, hline, by omega⟩

/-- Records of the hardcoded-style loop: category hardcoded_style, severity
Medium or Low, line at least the starting index. -/
theorem styleScan_inv (rx : Regexes) (f : String) :
    ∀ (n : Nat) (lines : List String) (r : Rec), r ∈ styleScan rx f n lines →
      r.category = "hardcoded_style" ∧
      (r.severity = "Medium" ∨ r.severity = "Low") ∧
      ∃ m, r.line = some m ∧ n ≤ m := by
  intro n lines
  induction lines generalizing n with
  | nil => intro r h; simp [styleScan] at h
  | cons line rest ih =>
    intro r h
    rw [styleScan] at h
    simp only [List.mem_append] at h
    rcases h with ((h | h) | h) | h
    · obtain rfl := mem_ite_singleton h
      exact ⟨rfl, Or.inl rfl, n, rfl, le_refl n⟩
    · obtain rfl := mem_ite_singleton h
      exact ⟨rfl, Or.inl rfl, n, rfl, le_refl n⟩
    · obtain rfl := mem_ite_singleton h
      exact ⟨rfl, Or.inr rfl, n, rfl, le_refl n⟩
    · obtain ⟨hcat, hsev, m, hline, hm⟩ := ih (n + 1) r h
      exact ⟨hcat, hsev, m, hline, by omega⟩

/-- Records of the navigation-pattern check: category navigation_pattern,
severity High, line at least 1. -/
theorem navRecs_inv (rx : Regexes) (f content : String)
    (lines : List String) (r : Rec) (h : r ∈ navRecs rx f content lines) :
    r.category = "navigation_pattern" ∧ r.severity = "High" ∧
    ∃ m, r.line = some m ∧ 1 ≤ m := by
  rw [navRecs] at h
  split at h
  · split at h
    · split at h
      · simp at h
      · split at h
        · simp only [List.mem_singleton] at h
          subst h
          exact ⟨rfl, rfl, _ + 1, rfl, by omega⟩
        · simp at h
    · simp at h
  · simp at h

/-- Every record of `analyze_swift_files` has a severity among Critical,
High, Medium and Low; the records of the per-line scans carry 1-based line
numbers; the `missing_import` records carry line number 0; and only the
`file_errors` records carry no line number. -/
theorem analyze_swift_files_inv (rx : Regexes) (fs : FileSys) :
    ∀ r ∈ analyze_swift_files rx fs,
      r.severity ∈ (["Critical", "High", "Medium", "Low"] : List String) ∧
      (r.category = "missing_import" → r.line = some 0) ∧
      (∀ m, r.line = some m → r.category ≠ "missing_import" → 1 ≤ m) ∧
      (r.line = none → r.category = "file_errors") := by
  intro r h
  rw [analyze_swift_files] at h
  obtain ⟨⟨p, c⟩, -, h⟩ := List.mem_flatMap.mp h
  split at h
  case isFalse => simp at h
  case isTrue =>
    rcases c with _ | content
    · simp only [List.mem_singleton] at h
      subst h
      refine ⟨by simp, by simp, by simp, fun _ => rfl⟩
    · unfold analyze_file at h
      simp only [List.mem_append] at h
      rcases h with (((h | h) | h) | h) | h
      · obtain ⟨hcat, hsev, m, hline, hm⟩ := forceScan_inv rx p 1 _ r h
        rw [hsev]
        refine ⟨by simp, ?_, ?_, ?_⟩
        · intro hx; rcases hcat with h0 | h0 | h0 <;> rw [h0] at hx <;>
            simp at hx
        · intro m' hm' _
          rw [hline] at hm'
          simp only [Option.some.injEq] at hm'
          omega
        · intro hn; rw [hline] at hn; simp at hn
      · split at h
        · obtain ⟨hcat, hsev, m, hline, hm⟩ := stringScan_inv p 1 _ r h
          rw [hsev]
          refine ⟨by simp, ?_, ?_, ?_⟩
          · intro hx; rw [hcat] at hx; simp at hx
          · intro m' hm' _
            rw [hline] at hm'
            simp only [Option.some.injEq] at hm'
            omega
          · intro hn; rw [hline] at hn; simp at hn
        · simp at h
      · obtain rfl := mem_ite_singleton h
        refine ⟨by simp, fun _ => rfl, ?_, by simp⟩
        intro m hm hne
        exact absurd rfl hne
      · obtain ⟨hcat, hsev, m, hline, hm⟩ := navRecs_inv rx p content _ r h
        rw [hsev]
        refine ⟨by simp, ?_, ?_, ?_⟩
        · intro hx; rw [hcat] at hx; simp at hx
        · intro m' hm' _
          rw [hline] at hm'
          simp only [Option.some.injEq] at hm'
          omega
        · intro hn; rw [hline] at hn; simp at hn
      · obtain ⟨hcat, hsev, m, hline, hm⟩ := styleScan_inv rx p 1 _ r h
        refine ⟨by rcases hsev with h0 | h0 <;> rw [h0] <;> simp, ?_, ?_, ?_⟩
        · intro hx; rw [hcat] at hx; simp at hx
        · intro m' hm' _
          rw [hline] at hm'
          simp only [Option.some.injEq] at hm'
          omega
        · intro hn; rw [hline] at hn; simp at hn

end CheckAllIssues

namespace CheckRuntimeSimulation

/-- Records of the force-unwrap-scenarios loop: lowercase severities only. -/
theorem forceUnwrapScan_inv (rx : Regexes) (f : String) :
    ∀ (n : Nat) (lines : List String) (r : SimIssue),
      r ∈ forceUnwrapScan rx f n lines →
      r.severity ∈ (["critical", "high", "medium", "low"] : List String) := by
  intro n lines
  induction lines generalizing n with
  | nil => intro r h; simp [forceUnwrapScan] at h
  | cons line rest ih =>
    intro r h
    rw [forceUnwrapScan] at h
    simp only [List.mem_append] at h
    rcases h with ((h | h) | h) | h
    · obtain rfl := mem_ite_singleton h; simp
    · obtain rfl := mem_ite_singleton h; simp
    · obtain rfl := mem_ite_singleton h; simp
    · exact ih (n + 1) r h

/-- Records of `check_force_unwrap_scenarios` and `check_array_bounds`
carry lowercase severities drawn from critical, high, medium, low. -/
theorem runtime_sim_severities (rx : Regexes) (f : String)
    (rd : Except String String) (r : SimIssue) :
    (r ∈ check_force_unwrap_scenarios rx f rd →
      r.severity ∈ (["critical", "high", "medium", "low"] : List String)) ∧
    (r ∈ check_array_bounds rx f rd →
      r.severity ∈ (["critical", "high", "medium", "low"] : List String)) := by
  constructor
  · intro h
    rcases rd with e | content
    · simp [check_force_unwrap_scenarios] at h
    · exact forceUnwrapScan_inv rx f 0 _ r h
  · intro h
    rcases rd with e | content
    · simp [check_array_bounds] at h
    · rw [check_array_bounds] at h
      simp only [List.mem_append] at h
      rcases h with h | h
      · obtain ⟨x, -, rfl⟩ := List.mem_map.mp h
        simp
      · obtain rfl := mem_ite_singleton h
        simp

end CheckRuntimeSimulation

/-- C2 counterexample: check-runtime-simulation.py emits severity labels
outside the fixed enumeration Critical, High, Medium, Low: on the one-line
file `x?.y!`, `check_force_unwrap_scenarios` appends a record whose
severity is the lowercase string high, which is not in the enumeration. -/
theorem C2_severity_enumeration_counterexample :
    (CheckRuntimeSimulation.check_force_unwrap_scenarios
        ⟨fun _ => false, fun _ => []⟩ "A.swift" (.ok "x?.y!")).map
      CheckRuntimeSimulation.SimIssue.severity = ["high"] ∧
    "high" ∉ (["Critical", "High", "Medium", "Low"] : List String) :=
  ⟨rfl, by decide⟩

/-- C2 (amended): every issue record appended by check-all-issues.py's
`analyze_swift_files` carries a severity drawn from the capitalized
enumeration Critical, High, Medium, Low, while the records appended by
check-runtime-simulation.py's `check_force_unwrap_scenarios` and
`check_array_bounds` carry severities drawn from the LOWERCASE enumeration
critical, high, medium, low. -/
theorem C2_severity_labels (rx : CheckAllIssues.Regexes) (fs : FileSys)
    (srx : CheckRuntimeSimulation.Regexes) (f : String)
    (rd : Except String String) :
    (∀ r ∈ CheckAllIssues.analyze_swift_files rx fs,
      r.severity ∈ (["Critical", "High", "Medium", "Low"] : List String)) ∧
    (∀ r : CheckRuntimeSimulation.SimIssue,
      (r ∈ CheckRuntimeSimulation.check_force_unwrap_scenarios srx f rd ∨
       r ∈ CheckRuntimeSimulation.check_array_bounds srx f rd) →
      r.severity ∈ (["critical", "high", "medium", "low"] : List String)) := by
  constructor
  · intro r h
    exact (CheckAllIssues.analyze_swift_files_inv rx fs r h).1
  · intro r h
    rcases h with h | h
    · exact (CheckRuntimeSimulation.runtime_sim_severities srx f rd r).1 h
    · exact (CheckRuntimeSimulation.runtime_sim_severities srx f rd r).2 h

/-- Witness for C2: concrete records of both scripts, with the theorem
applied to them. -/
theorem C2_severity_labels_witness :
    (⟨"missing_import", "MedicationManager/A.swift", some 0, "High"⟩ :
        CheckAllIssues.Rec) ∈
      CheckAllIssues.analyze_swift_files
        ⟨fun _ => false, fun _ => false, fun _ => false, fun _ => false,
         fun _ => false, fun _ => false, fun _ => none, fun _ => false⟩
        [("MedicationManager/A.swift", some "UIApplication")] ∧
    "High" ∈ (["Critical", "High", "Medium", "Low"] : List String) ∧
    (⟨"A.swift", some 1, "Force unwrap after optional chain", "high"⟩ :
        CheckRuntimeSimulation.SimIssue) ∈
      CheckRuntimeSimulation.check_force_unwrap_scenarios
        ⟨fun _ => false, fun _ => []⟩ "A.swift" (.ok "x?.y!") ∧
    "high" ∈ (["critical", "high", "medium", "low"] : List String) := by
  have hmem1 : (⟨"missing_import", "MedicationManager/A.swift", some 0,
      "High"⟩ : CheckAllIssues.Rec) ∈
      CheckAllIssues.analyze_swift_files
        ⟨fun _ => false, fun _ => false, fun _ => false, fun _ => false,
         fun _ => false, fun _ => false, fun _ => none, fun _ => false⟩
        [("MedicationManager/A.swift", some "UIApplication")] := by
    rw [show CheckAllIssues.analyze_swift_files
        ⟨fun _ => false, fun _ => false, fun _ => false, fun _ => false,
         fun _ => false, fun _ => false, fun _ => none, fun _ => false⟩
        [("MedicationManager/A.swift", some "UIApplication")] =
      [⟨"missing_import", "MedicationManager/A.swift", some 0, "High"⟩]
      from rfl]
    exact List.mem_singleton.mpr rfl
  have hmem2 : (⟨"A.swift", some 1, "Force unwrap after optional chain",
      "high"⟩ : CheckRuntimeSimulation.SimIssue) ∈
      CheckRuntimeSimulation.check_force_unwrap_scenarios
        ⟨fun _ => false, fun _ => []⟩ "A.swift" (.ok "x?.y!") := by
    rw [show CheckRuntimeSimulation.check_force_unwrap_scenarios
        ⟨fun _ => false, fun _ => []⟩ "A.swift" (.ok "x?.y!") =
      [⟨"A.swift", some 1, "Force unwrap after optional chain", "high"⟩]
      from rfl]
    exact List.mem_singleton.mpr rfl
  refine ⟨hmem1, ?_, hmem2, ?_⟩
  · exact (C2_severity_labels
      ⟨fun _ => false, fun _ => false, fun _ => false, fun _ => false,
       fun _ => false, fun _ => false, fun _ => none, fun _ => false⟩
      [("MedicationManager/A.swift", some "UIApplication")]
      ⟨fun _ => false, fun _ => []⟩ "A.swift" (.ok "x?.y!")).1 _ hmem1
  · exact (C2_severity_labels
      ⟨fun _ => false, fun _ => false, fun _ => false, fun _ => false,
       fun _ => false, fun _ => false, fun _ => none, fun _ => false⟩
      [("MedicationManager/A.swift", some "UIApplication")]
      ⟨fun _ => false, fun _ => []⟩ "A.swift" (.ok "x?.y!")).2 _ (Or.inl hmem2)

/-- C3 counterexample: the claim that every recorded line number is 1-based
fails for the `missing_import` category: on a file containing
`UIApplication` without `import UIKit`, check-all-issues.py's
`analyze_swift_files` and comprehensive-analysis.py's
`check_missing_imports` both record line number 0, and 0 is not at least
1. -/
theorem C3_line_numbers_counterexample :
    (CheckAllIssues.analyze_swift_files
        ⟨fun _ => false, fun _ => false, fun _ => false, fun _ => false,
         fun _ => false, fun _ => false, fun _ => none, fun _ => false⟩
        [("MedicationManager/A.swift", some "UIApplication")]).map
      (fun r => (r.category, r.line)) = [("missing_import", some 0)] ∧
    (ComprehensiveAnalysis.check_missing_imports "A.swift"
        "UIApplication").map (fun r => r.line) = [0] ∧
    ¬ (1 ≤ (0 : Nat)) :=
  ⟨rfl, rfl, by omega⟩

/-- C3 (amended): the line numbers recorded by the per-line scans of
check-all-issues.py's `analyze_swift_files` are 1-based, but its
`missing_import` records carry line number 0, and every record of
comprehensive-analysis.py's `check_missing_imports` and `check_empty_files`
carries line number 0. -/
theorem C3_line_numbers (rx : CheckAllIssues.Regexes) (fs : FileSys)
    (sc : String → String) (f content : String) :
    (∀ r ∈ CheckAllIssues.analyze_swift_files rx fs,
      (∀ m, r.line = some m → r.category ≠ "missing_import" → 1 ≤ m) ∧
      (r.category = "missing_import" → r.line = some 0)) ∧
    (∀ r ∈ ComprehensiveAnalysis.check_missing_imports f content,
      r.line = 0) ∧
    (∀ r ∈ ComprehensiveAnalysis.check_empty_files sc f content,
      r.line = 0) := by
  refine ⟨fun r h => ?_, fun r h => ?_, fun r h => ?_⟩
  · obtain ⟨-, h2, h3, -⟩ := CheckAllIssues.analyze_swift_files_inv rx fs r h
    exact ⟨h3, h2⟩
  · rw [ComprehensiveAnalysis.check_missing_imports] at h
    rcases List.mem_append.mp h with h | h
    · obtain rfl := mem_ite_singleton h; rfl
    · obtain rfl := mem_ite_singleton h; rfl
  · rw [ComprehensiveAnalysis.check_empty_files] at h
    split at h
    · split at h
      · simp only [List.mem_singleton] at h
        subst h; rfl
      · simp at h
    · simp at h

/-- Witness for C3: the theorem applied to a concrete missing_import record
of each script. -/
theorem C3_line_numbers_witness :
    (⟨"missing_import", "MedicationManager/A.swift", some 0, "High"⟩ :
        CheckAllIssues.Rec) ∈
      CheckAllIssues.analyze_swift_files
        ⟨fun _ => false, fun _ => false, fun _ => false, fun _ => false,
         fun _ => false, fun _ => false, fun _ => none, fun _ => false⟩
        [("MedicationManager/A.swift", some "UIApplication")] ∧
    (⟨"missing_import", "MedicationManager/A.swift", some 0, "High"⟩ :
        CheckAllIssues.Rec).line = some 0 ∧
    (⟨"A.swift", 0, "Uses UIApplication but missing \x27import UIKit\x27",
        "High"⟩ : ComprehensiveAnalysis.CIssue) ∈
      ComprehensiveAnalysis.check_missing_imports "A.swift"
        "UIApplication" ∧
    (⟨"A.swift", 0, "Uses UIApplication but missing \x27import UIKit\x27",
        "High"⟩ : ComprehensiveAnalysis.CIssue).line = 0 := by
  have hmem1 : (⟨"missing_import", "MedicationManager/A.swift", some 0,
      "High"⟩ : CheckAllIssues.Rec) ∈
      CheckAllIssues.analyze_swift_files
        ⟨fun _ => false, fun _ => false, fun _ => false, fun _ => false,
         fun _ => false, fun _ => false, fun _ => none, fun _ => false⟩
        [("MedicationManager/A.swift", some "UIApplication")] := by
    rw [show CheckAllIssues.analyze_swift_files
        ⟨fun _ => false, fun _ => false, fun _ => false, fun _ => false,
         fun _ => false, fun _ => false, fun _ => none, fun _ => false⟩
        [("MedicationManager/A.swift", some "UIApplication")] =
      [⟨"missing_import", "MedicationManager/A.swift", some 0, "High"⟩]
      from rfl]
    exact List.mem_singleton.mpr rfl
  have hmem2 : (⟨"A.swift", 0,
      "Uses UIApplication but missing \x27import UIKit\x27", "High"⟩ :
        ComprehensiveAnalysis.CIssue) ∈
      ComprehensiveAnalysis.check_missing_imports "A.swift"
        "UIApplication" := by
    rw [show ComprehensiveAnalysis.check_missing_imports "A.swift"
        "UIApplication" =
      [⟨"A.swift", 0, "Uses UIApplication but missing \x27import UIKit\x27",
        "High"⟩] from rfl]
    exact List.mem_singleton.mpr rfl
  refine ⟨hmem1, ?_, hmem2, ?_⟩
  · exact ((C3_line_numbers
      ⟨fun _ => false, fun _ => false, fun _ => false, fun _ => false,
       fun _ => false, fun _ => false, fun _ => none, fun _ => false⟩
      [("MedicationManager/A.swift", some "UIApplication")]
      id "A.swift" "UIApplication").1 _ hmem1).2 rfl
  · exact (C3_line_numbers
      ⟨fun _ => false, fun _ => false, fun _ => false, fun _ => false,
       fun _ => false, fun _ => false, fun _ => none, fun _ => false⟩
      [("MedicationManager/A.swift", some "UIApplication")]
      id "A.swift" "UIApplication").2.1 _ hmem2

/-- Embedding of Python's `str.lower()` (ASCII case folding suffices for
the mapped strings). -/
def pyLower (s : String) : String :=
  String.mk (s.toList.map Char.toLower)

/-- Replacement scan on character lists: at each position, a (non-empty)
occurrence of `old` is replaced by `new` and scanning resumes after it.
The structural fuel is initialized to the input length, which a replacement
step (consuming at least one character) never overtakes, so the
fuel-exhausted equation is unreachable. -/
def replaceFrom (old new : List Char) : Nat → List Char → List Char
  | _, [] => []
  | 0, _ :: _ => []
  | fuel + 1, c :: cs =>
    if listPrefixOf old (c :: cs) && !old.isEmpty then
      new ++ replaceFrom old new fuel (List.drop old.length (c :: cs))
    else c :: replaceFrom old new fuel cs

/-- Embedding of Python's `s.replace(old, new)` (all occurrences; the
scripts only call it with a non-empty `old`). -/
def pyReplace (s old new : String) : String :=
  String.mk (replaceFrom old.toList new.toList s.toList.length s.toList)

namespace ConsolidateStrings
/-
Embedding of src/consolidate-strings.py.
-/

/-- The fixed name of the analysis report opened by
`StringConsolidator.__init__` (line 20). -/
def analysisReportFileName : String := "string-analysis-report.json"

/-- The key of the analysis report consumed by `process_duplicates`
(line 55: `self.analysis['duplicates']`). -/
def analysisKeyRead : String := "duplicates"

/-- The protected files of `StringConsolidator.__init__` (lines 24-29). -/
def protected_files : List String :=
  ["FirebaseManager.swift", "PhoneAuthView.swift", "LoginView.swift",
   "MedicationManagerApp.swift"]

/-- The button/action mappings of `process_duplicates` (lines 58-73). -/
def button_mappings : List (String × String) :=
  [("Save", "AppStrings.Common.save"),
   ("Cancel", "AppStrings.Common.cancel"),
   ("Delete", "AppStrings.Common.delete"),
   ("OK", "AppStrings.Common.ok"),
   ("Done", "AppStrings.Common.done"),
   ("Edit", "AppStrings.Common.edit"),
   ("Add", "AppStrings.Common.add"),
   ("Update", "AppStrings.Common.update"),
   ("Close", "AppStrings.Common.close"),
   ("Continue", "AppStrings.Common.continue"),
   ("Back", "AppStrings.Common.back"),
   ("Next", "AppStrings.Common.next"),
   ("Submit", "AppStrings.Common.submit"),
   ("Confirm", "AppStrings.Common.confirm")]

/-- The status-message mappings of `process_duplicates` (lines 82-89). -/
def status_mappings : List (String × String) :=
  [("Loading...", "AppStrings.Common.loading"),
   ("Saving...", "AppStrings.Common.saving"),
   ("Updating...", "AppStrings.Common.updating"),
   ("Syncing...", "AppStrings.Common.syncing"),
   ("Please wait...", "AppStrings.Common.pleaseWait"),
   ("Processing...", "AppStrings.Common.processing")]

/-- Wrapping a string in double quotes, the embedding of the
`f'"{string}"'` replacement keys. -/
def quoteWrap (s : String) : String :=
  String.mk (quoteChar :: s.toList ++ [quoteChar])

/-- Embedding of `process_duplicates` (lines 51-96): the `replacements`
mapping, keyed by the quoted duplicate string; `duplicates` holds the keys
of the ingested report's duplicates object. -/
def process_duplicates_replacements (duplicates : List String) :
    List (String × String) :=
  (button_mappings.filter (fun e =>
      duplicates.contains e.1 || duplicates.contains (pyLower e.1))).map
    (fun e => (quoteWrap e.1, e.2)) ++
  (status_mappings.filter (fun e =>
      duplicates.contains e.1 ||
      duplicates.contains (pyReplace e.1 "..." ""))).map
    (fun e => (quoteWrap e.1, e.2))

/-- One interpolation pattern of `process_patterns` (lines 98-124): every
pattern there has the shape of a literal, a greedy `(.+)` capture and a
closing literal. -/
structure Pat where
  lit1 : String
  lit2 : String
  repl : String

/-- The nine interpolation patterns of `process_patterns`. -/
def patterns : List Pat :=
  [⟨"\"Failed to ", "\"", "AppStrings.ErrorMessages.failedTo(_:)"⟩,
   ⟨"\"Unable to ", "\"", "AppStrings.ErrorMessages.unableTo(_:)"⟩,
   ⟨"\"An error occurred ", "\"", "AppStrings.ErrorMessages.errorOccurred(_:)"⟩,
   ⟨"\"Please ", "\"", "AppStrings.Common.please(_:)"⟩,
   ⟨"\"No ", " found\"", "AppStrings.EmptyStates.noItemsFound(_:)"⟩,
   ⟨"\"You have no ", "\"", "AppStrings.EmptyStates.youHaveNo(_:)"⟩,
   ⟨"\"", " added successfully\"", "AppStrings.Success.itemAdded(_:)"⟩,
   ⟨"\"", " saved successfully\"", "AppStrings.Success.itemSaved(_:)"⟩,
   ⟨"\"", " deleted successfully\"", "AppStrings.Success.itemDeleted(_:)"⟩]

/-- Greedy backtracking of the `(.+)` capture: starting from the maximal
window length, the first (longest) capture length whose remainder starts
with the closing literal wins; the returned pair is the capture and the
input after the whole match. -/
def tryCapture (suf after : List Char) : Nat → Option (List Char × List Char)
  | 0 => none
  | k + 1 =>
    if listPrefixOf suf (after.drop (k + 1)) then
      some (after.take (k + 1), after.drop (k + 1 + suf.length))
    else tryCapture suf after k

/-- Embedding of one `re.sub(pattern, replace_func, content)` of
`update_source_files` (lines 290-295) for a pattern of the shape
`lit1(.+)lit2`: scanning left to right, at each occurrence of the opening
literal the greedy capture (bounded by the end of the line, since `.` does
not match a newline) is sought, the whole match is rewritten to
`repl("capture")`, and scanning resumes after it.  The structural fuel is
initialized to the input length, which a rewriting step (consuming at least
the opening literal) never overtakes, so the fuel-exhausted equation is
unreachable. -/
def patSubFrom (p : Pat) : Nat → List Char → List Char
  | _, [] => []
  | 0, _ :: _ => []
  | fuel + 1, c :: cs =>
    if listPrefixOf p.lit1.toList (c :: cs) && !p.lit1.toList.isEmpty then
      match tryCapture p.lit2.toList
          (List.drop p.lit1.toList.length (c :: cs))
          ((List.takeWhile (fun d => d != Char.ofNat 10)
            (List.drop p.lit1.toList.length (c :: cs))).length) with
      | some (captured, rest) =>
        (p.repl ++ "(\"").toList ++ captured ++ ("\")").toList ++
          patSubFrom p fuel rest
      | none => c :: patSubFrom p fuel cs
    else c :: patSubFrom p fuel cs

/-- Applying the `replacements` dictionary (lines 286-287). -/
def applyReplacements (rs : List (String × String)) (content : String) :
    String :=
  rs.foldl (fun c r => pyReplace c r.1 r.2) content

/-- Applying the interpolation patterns (lines 290-295). -/
def applyPatterns (ps : List Pat) (content : String) : String :=
  ps.foldl (fun c p => String.mk (patSubFrom p c.toList.length c.toList))
    content

/-- The whole per-file substitution of `update_source_files`: direct
replacements first, then the pattern rewrites. -/
def transformContent (rs : List (String × String)) (content : String) :
    String :=
  applyPatterns patterns (applyReplacements rs content)

/-- Embedding of the write effects of `update_source_files` (lines
265-307): the walk collects `.swift` files whose (base)name is not
protected, a read failure on a file is caught and skipped, and a file is
written back exactly when the substituted content differs from the
original. -/
def update_source_files_writes (rs : List (String × String))
    (files : List (String × Option String)) : List (String × String) :=
  files.flatMap fun e =>
    if pyEndsWith e.1 ".swift" && !protected_files.contains e.1 then
      match e.2 with
      | none => []
      | some content =>
        if transformContent rs content != content then
          [(e.1, transformContent rs content)]
        else []
    else []

/-- The destination of `generate_app_strings` (line 260), under the
project root `.` of `main`. -/
def commonStringsPath : String :=
  "MedicationManager/Core/Configuration/CommonStrings.swift"

/-- Opening of the generated CommonStrings.swift template (lines
198-203). -/
def commonStringsHeader : String :=
  "import Foundation\n" ++
  "\n" ++
  "// MARK: - Common Strings used across the app\n" ++
  "extension AppStrings \x7b\n" ++
  "    struct Common \x7b\n"

/-- Closing of the generated CommonStrings.swift template (lines
210-257). -/
def commonStringsFooter : String :=
  "\n" ++
  "        \n" ++
  "        // MARK: - Interpolated Strings\n" ++
  "        static func please(_ action: String) -> String \x7b\n" ++
  "            String(format: NSLocalizedString(\"common.please\", value: \"Please %@\", comment: \"Please do something\"), action)\n" ++
  "        \x7d\n" ++
  "    \x7d\n" ++
  "    \n" ++
  "    struct EmptyStates \x7b\n" ++
  "        static func noItemsFound(_ items: String) -> String \x7b\n" ++
  "            String(format: NSLocalizedString(\"empty.noItemsFound\", value: \"No %@ found\", comment: \"No items found\"), items)\n" ++
  "        \x7d\n" ++
  "        \n" ++
  "        static func youHaveNo(_ items: String) -> String \x7b\n" ++
  "            String(format: NSLocalizedString(\"empty.youHaveNo\", value: \"You have no %@\", comment: \"You have no items\"), items)\n" ++
  "        \x7d\n" ++
  "    \x7d\n" ++
  "    \n" ++
  "    struct Success \x7b\n" ++
  "        static func itemAdded(_ item: String) -> String \x7b\n" ++
  "            String(format: NSLocalizedString(\"success.itemAdded\", value: \"%@ added successfully\", comment: \"Item added\"), item)\n" ++
  "        \x7d\n" ++
  "        \n" ++
  "        static func itemSaved(_ item: String) -> String \x7b\n" ++
  "            String(format: NSLocalizedString(\"success.itemSaved\", value: \"%@ saved successfully\", comment: \"Item saved\"), item)\n" ++
  "        \x7d\n" ++
  "        \n" ++
  "        static func itemDeleted(_ item: String) -> String \x7b\n" ++
  "            String(format: NSLocalizedString(\"success.itemDeleted\", value: \"%@ deleted successfully\", comment: \"Item deleted\"), item)\n" ++
  "        \x7d\n" ++
  "    \x7d\n" ++
  "\x7d\n" ++
  "\n" ++
  "// MARK: - Error Messages Extension\n" ++
  "extension AppStrings.ErrorMessages \x7b\n" ++
  "    static func failedTo(_ action: String) -> String \x7b\n" ++
  "        String(format: NSLocalizedString(\"error.failedTo\", value: \"Failed to %@\", comment: \"Failed to do something\"), action)\n" ++
  "    \x7d\n" ++
  "    \n" ++
  "    static func unableTo(_ action: String) -> String \x7b\n" ++
  "        String(format: NSLocalizedString(\"error.unableTo\", value: \"Unable to %@\", comment: \"Unable to do something\"), action)\n" ++
  "    \x7d\n" ++
  "    \n" ++
  "    static func errorOccurred(_ context: String) -> String \x7b\n" ++
  "        String(format: NSLocalizedString(\"error.occurred\", value: \"An error occurred %@\", comment: \"Error occurred\"), context)\n" ++
  "    \x7d\n" ++
  "\x7d\n"

/-- The fixed dictionary of `create_common_strings` (lines 130-189). -/
def common_strings : List (String × String) :=
  [("save", "Save"), ("cancel", "Cancel"), ("delete", "Delete"),
   ("ok", "OK"), ("done", "Done"), ("edit", "Edit"), ("add", "Add"),
   ("update", "Update"), ("close", "Close"), ("continue", "Continue"),
   ("back", "Back"), ("next", "Next"), ("submit", "Submit"),
   ("confirm", "Confirm"), ("retry", "Retry"), ("refresh", "Refresh"),
   ("loading", "Loading..."), ("saving", "Saving..."),
   ("updating", "Updating..."), ("syncing", "Syncing..."),
   ("pleaseWait", "Please wait..."), ("processing", "Processing..."),
   ("yes", "Yes"), ("no", "No"), ("all", "All"), ("none", "None"),
   ("select", "Select"), ("selected", "Selected"), ("search", "Search"),
   ("filter", "Filter"), ("sort", "Sort"), ("today", "Today"),
   ("yesterday", "Yesterday"), ("tomorrow", "Tomorrow"),
   ("daily", "Daily"), ("weekly", "Weekly"), ("monthly", "Monthly"),
   ("mg", "mg"), ("mcg", "mcg"), ("ml", "ml"), ("tablets", "tablets"),
   ("capsules", "capsules"), ("asNeeded", "As needed"),
   ("onceDaily", "Once daily"), ("twiceDaily", "Twice daily"),
   ("threeTimesDaily", "Three times daily"),
   ("fourTimesDaily", "Four times daily")]

/-- Insertion or overwrite of one key in an insertion-ordered dictionary,
the embedding of `d[key] = value`. -/
def dictSet (m : List (String × String)) (k v : String) :
    List (String × String) :=
  if m.any (fun e => e.1 == k) then
    m.map (fun e => if e.1 == k then (k, v) else e)
  else m ++ [(k, v)]

/-- The last dot-separated component, the embedding of
`app_string.split('.')[-1]`. -/
def lastDotComponent (s : String) : String :=
  (splitOnChar (Char.ofNat 46) s.toList).getLastD ""

/-- The `new_app_strings['Common']` dictionary after `process_duplicates`
(which inserts the lowercased button keys and the status keys) and
`create_common_strings` (whose `update` overwrites). -/
def newAppStringsCommon (duplicates : List String) :
    List (String × String) :=
  let m1 := (button_mappings.filter (fun e =>
      duplicates.contains e.1 || duplicates.contains (pyLower e.1))).foldl
    (fun m e => dictSet m (pyLower e.1) e.1) []
  let m2 := (status_mappings.filter (fun e =>
      duplicates.contains e.1 ||
      duplicates.contains (pyReplace e.1 "..." ""))).foldl
    (fun m e => dictSet m (lastDotComponent e.2) e.1) m1
  common_strings.foldl (fun m e => dictSet m e.1 e.2) m2

/-- Insertion sort by key, the embedding of
`sorted(self.new_app_strings['Common'].items())` over a dictionary with
distinct keys. -/
def insertSorted (kv : String × String) :
    List (String × String) → List (String × String)
  | [] => [kv]
  | h :: t => if kv.1 ≤ h.1 then kv :: h :: t else h :: insertSorted kv t

/-- Sorting an association list by key. -/
def sortByKey : List (String × String) → List (String × String)
  | [] => []
  | h :: t => insertSorted h (sortByKey t)

/-- One generated `static let` line (line 207). -/
def commonEntryLine (key value : String) : String :=
  "        static let " ++ key ++ " = NSLocalizedString(\"common." ++ key ++
    "\", value: \"" ++ value ++ "\", comment: \"" ++ value ++ "\")\n"

/-- The full generated content of CommonStrings.swift (lines 198-257). -/
def common_strings_content (duplicates : List String) : String :=
  commonStringsHeader ++
  String.join ((sortByKey (newAppStringsCommon duplicates)).map
    (fun kv => commonEntryLine kv.1 kv.2)) ++
  commonStringsFooter

/-- Embedding of `generate_app_strings` (lines 193-263): the generated
content is written to CommonStrings.swift through the write primitive `w`
with NO exception handler, unconditionally (regardless of any previous
content of the file). -/
def generate_app_strings (w : String → String → Except String Unit)
    (duplicates : List String) : Except String Unit :=
  w commonStringsPath (common_strings_content duplicates)

/-- Embedding of `consolidate` (lines 31-49) followed by `main`: the
replacement table is built, CommonStrings.swift is generated (a failure
here propagates), and the source files are updated; the returned value is
the list of in-place writes performed by `update_source_files`. -/
def consolidate (w : String → String → Except String Unit)
    (duplicates : List String) (files : List (String × Option String)) :
    Except String (List (String × String)) := do
  generate_app_strings w duplicates
  return update_source_files_writes
    (process_duplicates_replacements duplicates) files

/-- The complete write trace of one successful run of
consolidate-strings.py: the unconditional CommonStrings.swift write of
`generate_app_strings` followed by the conditional in-place writes of
`update_source_files`. -/
def consolidate_run_writes (duplicates : List String)
    (files : List (String × Option String)) : List (String × String) :=
  (commonStringsPath, common_strings_content duplicates) ::
  update_source_files_writes
    (process_duplicates_replacements duplicates) files

end ConsolidateStrings

namespace CheckCrossDependencies
/-
Embedding of src/check-cross-dependencies.py.
-/

/-- A networkx-style directed graph: node list and edge list. -/
structure DiGraph where
  nodes : List String
  edges : List (String × String)

/-- Embedding of `networkx.DiGraph.predecessors`, which RAISES
(`NetworkXError`) when the queried node is not in the graph. -/
def predecessors (g : DiGraph) (n : String) :
    Except String (List String) :=
  if g.nodes.contains n then
    .ok ((g.edges.filter (fun e => e.2 == n)).map (fun e => e.1))
  else .error ("The node " ++ n ++ " is not in the digraph.")

/-- The fixed API file list of `analyze_api_integration` (lines 97-102). -/
def api_files : List String :=
  ["FirebaseManager.swift", "ClaudeAIClient.swift", "CoreDataManager.swift",
   "DataSyncManager.swift"]

/-- The enumeration loop of `analyze_api_integration` (lines 104-108):
`predecessors` is queried for each API file's stem with NO surrounding
`try`/`except`, so a missing node aborts the loop. -/
def apiLoop (g : DiGraph) : List String →
    Except String (List (String × List String))
  | [] => .ok []
  | f :: rest => do
    let users ← predecessors g (pyReplace f ".swift" "")
    let tail ← apiLoop g rest
    return (if users.isEmpty then tail else (f, users) :: tail)

/-- Embedding of `analyze_api_integration` (lines 93-108), returning the
populated `api_calls` entries. -/
def analyze_api_integration (g : DiGraph) :
    Except String (List (String × List String)) :=
  apiLoop g api_files

end CheckCrossDependencies

/-- A JSON value, as serialized by `json.dump` in the report writers. -/
inductive JVal where
  | num (n : Nat)
  | str (s : String)
  | obj (entries : List (String × JVal))
  | arr (elems : List JVal)

/-- The keys of a JSON object (empty for non-objects). -/
def JVal.keys : JVal → List String
  | .obj es => es.map Prod.fst
  | _ => []

namespace AnalyzeStrings
/-
Embedding of src/analyze-strings.py (the report writer).
-/

/-- The fixed name under which `generate_consolidation_report` serializes
its report (line 191). -/
def reportFileName : String := "string-analysis-report.json"

/-- Embedding of `StringAnalyzer.generate_consolidation_report` (lines
159-194): the report object with its four fixed top-level keys, built from
the analyzer state (`duplicates` as `(string, count, locations)` triples
already ordered by frequency, and the per-file string counts ordered by
`most_common`), and the fixed file name it is written to. -/
def generate_consolidation_report (total_unique dup_count unique_count
    total_occ : Nat) (duplicates : List (String × Nat × List (String × Nat)))
    (fileCounts : List (String × Nat)) : String × JVal :=
  (reportFileName,
   .obj [("summary", .obj
           [("total_unique_strings", .num total_unique),
            ("duplicate_strings", .num dup_count),
            ("single_use_strings", .num unique_count),
            ("total_occurrences", .num total_occ)]),
         ("duplicates", .obj ((duplicates.take 50).map fun d =>
           (d.1, JVal.obj
             [("count", .num d.2.1),
              ("sample_locations", .arr ((d.2.2.take 5).map fun l =>
                .arr [.str l.1, .num l.2]))]))),
         ("consolidation_suggestions", .obj []),
         ("files_with_most_strings", .obj ((fileCounts.take 20).map fun f =>
           (f.1, JVal.num f.2)))])

end AnalyzeStrings

/-- C6 counterexample: mid-run errors ARE fatal in two of the cited
places: a failing write of CommonStrings.swift inside
`generate_app_strings` propagates out of consolidate-strings.py's
`consolidate`, and `analyze_api_integration` querying the dependency graph
for a node that is not in it (here: the empty graph) propagates the
NetworkXError out of check-cross-dependencies.py's analysis. -/
theorem C6_no_fatal_midrun_error_counterexample :
    ConsolidateStrings.consolidate (fun _ _ => .error "disk full") [] [] =
      .error "disk full" ∧
    CheckCrossDependencies.analyze_api_integration ⟨[], []⟩ =
      .error "The node FirebaseManager is not in the digraph." :=
  ⟨rfl, rfl⟩

/-- A missing node among the API files makes the whole
`analyze_api_integration` loop fail. -/
theorem apiLoop_propagates (g : CheckCrossDependencies.DiGraph) :
    ∀ (l : List String) (f : String), f ∈ l →
      g.nodes.contains (pyReplace f ".swift" "") = false →
      (CheckCrossDependencies.apiLoop g l).isOk = false := by
  intro l
  induction l with
  | nil => intro f h; simp at h
  | cons q rest ih =>
    intro f hmem hmiss
    rcases List.mem_cons.mp hmem with rfl | hmem'
    · rw [CheckCrossDependencies.apiLoop]
      rw [show CheckCrossDependencies.predecessors g
          (pyReplace f ".swift" "") = .error ("The node " ++
            pyReplace f ".swift" "" ++ " is not in the digraph.") from by
        rw [CheckCrossDependencies.predecessors,
          if_neg (by simp only [hmiss]; simp)]]
      rfl
    · rw [CheckCrossDependencies.apiLoop]
      rcases hp : CheckCrossDependencies.predecessors g
          (pyReplace q ".swift" "") with e | users
      · rfl
      · have htl := ih f hmem' hmiss
        rcases htail : CheckCrossDependencies.apiLoop g rest with e | w
        · rfl
        · rw [htail] at htl
          simp [Except.isOk, Except.toBool] at htl

/-- C6 (amended): per-file read errors inside the walk loops are caught,
but not every mid-run error is: an exception while `generate_app_strings`
writes CommonStrings.swift propagates out of `consolidate` and aborts the
consolidate-strings.py run, and the NetworkXError raised when
`analyze_api_integration` queries the dependency graph for an absent node
(any of its four fixed API stems) aborts the check-cross-dependencies.py
run. -/
theorem C6_midrun_errors_fatal
    (w : String → String → Except String Unit)
    (duplicates : List String) (files : List (String × Option String))
    (e : String) (g : CheckCrossDependencies.DiGraph) (f : String) :
    (w ConsolidateStrings.commonStringsPath
        (ConsolidateStrings.common_strings_content duplicates) = .error e →
      ConsolidateStrings.consolidate w duplicates files = .error e) ∧
    (f ∈ CheckCrossDependencies.api_files →
      g.nodes.contains (pyReplace f ".swift" "") = false →
      (CheckCrossDependencies.analyze_api_integration g).isOk = false) := by
  constructor
  · intro hw
    rw [ConsolidateStrings.consolidate, ConsolidateStrings.generate_app_strings,
      hw]
    rfl
  · intro hmem hmiss
    exact apiLoop_propagates g CheckCrossDependencies.api_files f hmem hmiss

/-- Witness for C6: a concrete failing write and the concrete empty graph,
with the theorem applied to them. -/
theorem C6_midrun_errors_fatal_witness :
    ((fun _ _ => Except.error "disk full") : String → String →
        Except String Unit) ConsolidateStrings.commonStringsPath
      (ConsolidateStrings.common_strings_content []) = .error "disk full" ∧
    ConsolidateStrings.consolidate (fun _ _ => .error "disk full") [] [] =
      .error "disk full" ∧
    "FirebaseManager.swift" ∈ CheckCrossDependencies.api_files ∧
    (CheckCrossDependencies.DiGraph.mk [] []).nodes.contains
      (pyReplace "FirebaseManager.swift" ".swift" "") = false ∧
    (CheckCrossDependencies.analyze_api_integration ⟨[], []⟩).isOk = false := by
  have h := C6_midrun_errors_fatal (fun _ _ => .error "disk full") [] []
    "disk full" ⟨[], []⟩ "FirebaseManager.swift"
  exact ⟨rfl, h.1 rfl, by simp [CheckCrossDependencies.api_files], rfl,
    h.2 (by simp [CheckCrossDependencies.api_files]) rfl⟩

namespace OutputFiles
/-
The report files each script writes, translated from its `open(..., 'w')`
(and `plt.savefig`) calls; an empty list records that the script's `main`
performs no file write at all.
-/

/-- check-all-issues.py, lines 232 and 236. -/
def check_all_issues : List String :=
  ["comprehensive-issues-report.json", "comprehensive-issues-report.md"]

/-- comprehensive-analysis.py, line 285. -/
def comprehensive_analysis : List String :=
  ["comprehensive-analysis-report.json"]

/-- check-runtime-simulation.py, line 381. -/
def check_runtime_simulation : List String :=
  ["runtime-simulation-report.json"]

/-- analyze-strings.py, line 191. -/
def analyze_strings : List String := ["string-analysis-report.json"]

/-- analyze-force-unwrapping.py, line 123. -/
def analyze_force_unwrapping : List String :=
  ["force-unwrapping-report.json"]

/-- fix-style-issues.py, line 382. -/
def fix_style_issues : List String := ["style-fixes-report.json"]

/-- check-functionality.py, line 464. -/
def check_functionality : List String := ["functionality-report.json"]

/-- check-cross-dependencies.py, lines 331 and 372. -/
def check_cross_dependencies : List String :=
  ["cross-dependency-report.json", "dependency-graph.png"]

/-- analyze_circular_deps.py, line 190: an ABSOLUTE path. -/
def analyze_circular_deps : List String :=
  ["/Users/cvr/Documents/Project/MedicationManager/circular_deps_report.json"]

/-- analyze_dependencies_advanced.py, line 207: an ABSOLUTE path. -/
def analyze_dependencies_advanced : List String :=
  ["/Users/cvr/Documents/Project/MedicationManager/dependency_analysis_detailed.json"]

/-- validate-detailed.py, lines 417-419: `save_detailed_report` (called on
every `validate_project` run, line 399) writes
`validation-report-{timestamp}.json`, a relative path whose name embeds
the current timestamp. -/
def validate_detailed (timestamp : String) : List String :=
  ["validation-report-" ++ timestamp ++ ".json"]

/-- check-onchange-usage.py: its `main` (lines 45-104) only prints; there
is no `open(..., 'w')` in the script. -/
def check_onchange_usage : List String := []

/-- check-force-unwrap.py: its `main` (lines 76-156) only prints. -/
def check_force_unwrap : List String := []

/-- analyze-circular-deps.py (hyphen variant): `analyze_dependencies`
(lines 8-192) only prints. -/
def analyze_circular_deps_hyphen : List String := []

/-- find_ai_struct.py: only prints. -/
def find_ai_struct : List String := []

/-- fix-colors-fonts.py: `generate_report` (lines 266-275) only prints. -/
def fix_colors_fonts : List String := []

/-- consolidate-strings.py: writes Swift source files under the project
root (CommonStrings.swift, line 260, and changed sources, line 299) but no
report file. -/
def consolidate_strings : List String := []

end OutputFiles

/-- A path names a file in the current working directory exactly when it is
relative (the scripts never change directory). -/
def isInWorkingDir (p : String) : Bool := !pyStartsWith p "/"

/-- C5 counterexample: check-onchange-usage.py's `main` writes no report
file at all, the report file of analyze_circular_deps.py's `main` is
written to an absolute path under /Users/..., not to the working
directory, and validate-detailed.py's report name varies with the
run's timestamp, so it is not fixed. -/
theorem C5_output_files_counterexample :
    OutputFiles.check_onchange_usage = [] ∧
    (OutputFiles.analyze_circular_deps.all isInWorkingDir) = false ∧
    OutputFiles.validate_detailed "20250101-000000" ≠
      OutputFiles.validate_detailed "20250102-000000" :=
  ⟨rfl, rfl, by decide⟩

/-- C5 (amended): eight analysis scripts write their reports under fixed
names in the working directory (check-all-issues.py,
comprehensive-analysis.py, check-runtime-simulation.py, analyze-strings.py,
analyze-force-unwrapping.py, fix-style-issues.py, check-functionality.py
and check-cross-dependencies.py); validate-detailed.py writes its report
in the working directory but under a timestamp-dependent name, not a fixed
one; check-onchange-usage.py, check-force-unwrap.py,
analyze-circular-deps.py, find_ai_struct.py, fix-colors-fonts.py and
consolidate-strings.py write no report file at all; and
analyze_circular_deps.py and analyze_dependencies_advanced.py write their
reports to absolute paths under /Users/..., outside the working
directory. -/
theorem C5_output_files :
    (OutputFiles.check_all_issues ≠ [] ∧
      OutputFiles.check_all_issues.all isInWorkingDir = true) ∧
    (OutputFiles.comprehensive_analysis ≠ [] ∧
      OutputFiles.comprehensive_analysis.all isInWorkingDir = true) ∧
    (OutputFiles.check_runtime_simulation ≠ [] ∧
      OutputFiles.check_runtime_simulation.all isInWorkingDir = true) ∧
    (OutputFiles.analyze_strings ≠ [] ∧
      OutputFiles.analyze_strings.all isInWorkingDir = true) ∧
    (OutputFiles.analyze_force_unwrapping ≠ [] ∧
      OutputFiles.analyze_force_unwrapping.all isInWorkingDir = true) ∧
    (OutputFiles.fix_style_issues ≠ [] ∧
      OutputFiles.fix_style_issues.all isInWorkingDir = true) ∧
    (OutputFiles.check_functionality ≠ [] ∧
      OutputFiles.check_functionality.all isInWorkingDir = true) ∧
    (OutputFiles.check_cross_dependencies ≠ [] ∧
      OutputFiles.check_cross_dependencies.all isInWorkingDir = true) ∧
    (∀ t, OutputFiles.validate_detailed t ≠ [] ∧
      (OutputFiles.validate_detailed t).all isInWorkingDir = true) ∧
    OutputFiles.validate_detailed "20250101-000000" ≠
      OutputFiles.validate_detailed "20250102-000000" ∧
    OutputFiles.check_onchange_usage = [] ∧
    OutputFiles.check_force_unwrap = [] ∧
    OutputFiles.analyze_circular_deps_hyphen = [] ∧
    OutputFiles.find_ai_struct = [] ∧
    OutputFiles.fix_colors_fonts = [] ∧
    OutputFiles.consolidate_strings = [] ∧
    OutputFiles.analyze_circular_deps.all isInWorkingDir = false ∧
    OutputFiles.analyze_dependencies_advanced.all isInWorkingDir = false := by
  refine ⟨⟨by simp [OutputFiles.check_all_issues], rfl⟩,
    ⟨by simp [OutputFiles.comprehensive_analysis], rfl⟩,
    ⟨by simp [OutputFiles.check_runtime_simulation], rfl⟩,
    ⟨by simp [OutputFiles.analyze_strings], rfl⟩,
    ⟨by simp [OutputFiles.analyze_force_unwrapping], rfl⟩,
    ⟨by simp [OutputFiles.fix_style_issues], rfl⟩,
    ⟨by simp [OutputFiles.check_functionality], rfl⟩,
    ⟨by simp [OutputFiles.check_cross_dependencies], rfl⟩,
    fun t => ⟨by simp [OutputFiles.validate_detailed], ?_⟩,
    by decide, rfl, rfl, rfl, rfl, rfl, rfl, rfl, rfl⟩
  have h : pyStartsWith ("validation-report-" ++ t ++ ".json") "/"
      = false := by
    rw [pyStartsWith]
    rw [show ("validation-report-" ++ t ++ ".json").toList
        = 'v' :: ("alidation-report-" ++ t ++ ".json").toList from by
      simp [String.toList, String.data_append]]
    rw [show "/".toList = ['/'] from rfl]
    rw [listPrefixOf]
    simp
  simp [OutputFiles.validate_detailed, isInWorkingDir, h]

/-- Concrete check of C5's timestamp-parametric conjunct at one input. -/
theorem C5_output_files_witness :
    (OutputFiles.validate_detailed "20250101-000000"
      ≠ [] ∧
      (OutputFiles.validate_detailed "20250101-000000").all isInWorkingDir
        = true) ∧
    OutputFiles.check_onchange_usage = [] ∧
    OutputFiles.analyze_circular_deps.all isInWorkingDir = false :=
  ⟨(C5_output_files.2.2.2.2.2.2.2.2.1 "20250101-000000"),
    (C5_output_files.2.2.2.2.2.2.2.2.2.2.1),
    C5_output_files.2.2.2.2.2.2.2.2.2.2.2.2.2.2.2.2.1⟩

/-- C7: the downstream consolidate-strings.py ingests exactly the report
that analyze-strings.py produces: `StringConsolidator.__init__` opens the
fixed name string-analysis-report.json, which is the name
`generate_consolidation_report` writes to, and the key `duplicates` that
`process_duplicates` reads is among the top-level keys of every report the
analyzer generates. -/
theorem C7_pipeline_report_compatibility (total_unique dup_count
    unique_count total_occ : Nat)
    (duplicates : List (String × Nat × List (String × Nat)))
    (fileCounts : List (String × Nat)) :
    ConsolidateStrings.analysisReportFileName =
      (AnalyzeStrings.generate_consolidation_report total_unique dup_count
        unique_count total_occ duplicates fileCounts).1 ∧
    ConsolidateStrings.analysisKeyRead ∈
      JVal.keys (AnalyzeStrings.generate_consolidation_report total_unique
        dup_count unique_count total_occ duplicates fileCounts).2 := by
  exact ⟨rfl, by simp [AnalyzeStrings.generate_consolidation_report,
    JVal.keys, ConsolidateStrings.analysisKeyRead]⟩

/-- A directory tree: files carry their read result, directories their
entries. -/
inductive FSTree where
  | file (name : String) (content : Option String)
  | dir (name : String) (entries : List FSTree)

/-- Embedding of `os.walk` with the in-loop subdirectory pruning
`dirs[:] = [d for d in dirs if d not in exclude]`: every reachable file is
yielded with the list of directory names on its path below the walk root,
and a directory whose name is excluded is not descended into (the claims
under study are about the set of yielded files, not their order). -/
def walkDir (ex : List String) (dirs : List String) :
    List FSTree → List (List String × String × Option String)
  | [] => []
  | .file n c :: rest => (dirs, n, c) :: walkDir ex dirs rest
  | .dir n es :: rest =>
    (if ex.contains n then [] else walkDir ex (dirs ++ [n]) es) ++
    walkDir ex dirs rest

/-- Modelled from the spec: the full recursive enumeration of a tree,
without any exclusion. -/
def enumAllFiles (dirs : List String) :
    List FSTree → List (List String × String × Option String)
  | [] => []
  | .file n c :: rest => (dirs, n, c) :: enumAllFiles dirs rest
  | .dir n es :: rest =>
    enumAllFiles (dirs ++ [n]) es ++ enumAllFiles dirs rest

/-- Modelled from the spec: the files reachable by a recursive walk of the
root, restricted to `.swift` files and excluding the excluded directories
(a file is kept when no directory on its path is excluded). -/
def specDiscovery (ex : List String) (root : List FSTree) :
    List (List String × String × Option String) :=
  (enumAllFiles [] root).filter fun e =>
    pyEndsWith e.2.1 ".swift" && e.1.all (fun d => !ex.contains d)

/-- Every file enumerated below a prefix carries that prefix on its
path. -/
theorem enumAllFiles_prefix :
    ∀ (dirs : List String) (es : List FSTree)
      (e : List String × String × Option String), e ∈ enumAllFiles dirs es →
      ∃ tail, e.1 = dirs ++ tail := by
  intro dirs es
  induction dirs, es using enumAllFiles.induct with
  | case1 dirs => intro e h; simp [enumAllFiles] at h
  | case2 dirs n c rest ih =>
    intro e h
    rw [enumAllFiles] at h
    rcases List.mem_cons.mp h with rfl | h'
    · exact ⟨[], by simp⟩
    · exact ih e h'
  | case3 dirs n es' rest ihchild ihrest =>
    intro e h
    rw [enumAllFiles] at h
    rcases List.mem_append.mp h with h' | h'
    · obtain ⟨tail, htail⟩ := ihchild e h'
      exact ⟨n :: tail, by simp [htail]⟩
    · exact ihrest e h'

/-- The pruning walk yields exactly the enumerated files none of whose
path components below the walk root is excluded. -/
theorem walkDir_eq_enum_filter (ex : List String) :
    ∀ (dirs : List String) (es : List FSTree)
      (e : List String × String × Option String),
      e ∈ walkDir ex dirs es ↔
      (e ∈ enumAllFiles dirs es ∧
        ((e.1.drop dirs.length).all (fun d => !ex.contains d)) = true) := by
  intro dirs es
  induction dirs, es using walkDir.induct ex with
  | case1 dirs => intro e; simp [walkDir, enumAllFiles]
  | case2 dirs n c rest ih =>
    intro e
    rw [walkDir, enumAllFiles]
    constructor
    · intro h
      rcases List.mem_cons.mp h with rfl | h'
      · refine ⟨List.mem_cons_self _ _, ?_⟩
        simp [List.drop_length]
      · obtain ⟨h1, h2⟩ := (ih e).mp h'
        exact ⟨List.mem_cons_of_mem _ h1, h2⟩
    · intro ⟨h1, h2⟩
      rcases List.mem_cons.mp h1 with rfl | h'
      · exact List.mem_cons_self _ _
      · exact List.mem_cons_of_mem _ ((ih e).mpr ⟨h', h2⟩)
  | case3 dirs n es' rest ihchild ihrest =>
    intro e
    rw [walkDir, enumAllFiles]
    constructor
    · intro h
      rcases List.mem_append.mp h with h' | h'
      · split at h'
        · simp at h'
        · rename_i hnotex
          obtain ⟨h1, h2⟩ := (ihchild e).mp h'
          obtain ⟨tail, htail⟩ := enumAllFiles_prefix (dirs ++ [n]) es' e h1
          refine ⟨List.mem_append_left _ h1, ?_⟩
          have hd : e.1.drop dirs.length = n :: tail := by
            rw [htail]
            rw [List.append_assoc] at htail ⊢
            rw [List.drop_left]
            simp
          have hd2 : e.1.drop (dirs ++ [n]).length = tail := by
            rw [htail, List.drop_left]
          rw [hd]
          rw [hd2] at h2
          simp only [List.all_cons, h2, Bool.and_true]
          simpa using hnotex
      · obtain ⟨h1, h2⟩ := (ihrest e).mp h'
        exact ⟨List.mem_append_right _ h1, h2⟩
    · intro ⟨h1, h2⟩
      rcases List.mem_append.mp h1 with h' | h'
      · obtain ⟨tail, htail⟩ := enumAllFiles_prefix (dirs ++ [n]) es' e h'
        have hd : e.1.drop dirs.length = n :: tail := by
          rw [htail]
          rw [List.append_assoc] at htail ⊢
          rw [List.drop_left]
          simp
        have hd2 : e.1.drop (dirs ++ [n]).length = tail := by
          rw [htail, List.drop_left]
        rw [hd] at h2
        simp only [List.all_cons, Bool.and_eq_true] at h2
        refine List.mem_append_left _ ?_
        rw [if_neg ?_]
        · exact (ihchild e).mpr ⟨h', by rw [hd2]; exact h2.2⟩
        · intro hx
          rw [hx] at h2
          simp at h2
      · exact List.mem_append_right _ ((ihrest e).mpr ⟨h', h2⟩)

namespace AnalyzeForceUnwrapping

/-- The pruned directories of `analyze_project` (line 69). -/
def exclude_dirs : List String := [".build", "DerivedData", ".git"]

/-- The files `analyze_project` (lines 61-82) hands to
`find_force_unwrapping`: the `os.walk` of the root with the subdirectory
pruning, restricted to names ending in `.swift`. -/
def analyze_project_scanned (root : List FSTree) :
    List (List String × String × Option String) :=
  (walkDir exclude_dirs [] root).filter fun e => pyEndsWith e.2.1 ".swift"

/-- Embedding of `analyze_project(root_dir)` (lines 61-82): the scanned
files, the per-file violations (non-empty ones keyed by file), the file
count and the total violation count. -/
def analyze_project (rx : Regexes) (root : List FSTree) :
    List ((List String × String) × List Violation) × Nat × Nat :=
  let results := (analyze_project_scanned root).filterMap fun e =>
    let v := find_force_unwrapping rx
      (match e.2.2 with
       | some c => .ok c
       | none => .error "I/O error")
    if v.isEmpty then none else some ((e.1, e.2.1), v)
  (results, (analyze_project_scanned root).length,
    (results.map (fun r => r.2.length)).sum)

end AnalyzeForceUnwrapping

namespace FindAiStruct
/-
Embedding of src/find_ai_struct.py.
-/

/-- The single hardcoded path the script processes (line 35). -/
def target_path : String :=
  "/Users/cvr/Documents/Project/MedicationManager/MedicationManager/Core/Configuration/AppStrings.swift"

/-- The set of files find_ai_struct.py scans: exactly the hardcoded
`target_path`, REGARDLESS of any directory tree — the script performs no
directory walk at all. -/
def find_ai_struct_scanned (_t : List FSTree) : List String :=
  [target_path]

/-- Right strip, the embedding of `line.rstrip()`. -/
def pyRstrip (s : String) : String :=
  String.mk ((s.toList.reverse.dropWhile Char.isWhitespace).reverse)

/-- Brace balance of one line:
`line.count(chr(123)) - line.count(chr(125))`. -/
def braceDelta (line : String) : Int :=
  (line.toList.count (Char.ofNat 123) : Int) -
  (line.toList.count (Char.ofNat 125) : Int)

/-- The in-struct collection loop of `find_ai_struct` (lines 18-26):
lines are appended and the brace balance updated until it reaches zero. -/
def collectAi (bc : Int) (i : Nat) : List String → List (Nat × String)
  | [] => []
  | line :: rest =>
    (i, pyRstrip line) ::
    (if bc + braceDelta line = 0 then []
     else collectAi (bc + braceDelta line) (i + 1) rest)

/-- The struct-search loop of `find_ai_struct` (lines 13-26): the first
line containing `struct AI` and an opening brace starts the collection
with brace count 1. -/
def findAiStructLines (i : Nat) : List String → List (Nat × String)
  | [] => []
  | line :: rest =>
    if containsSub line "struct AI" && containsSub line "\x7b" then
      (i + 1, pyRstrip line) :: collectAi 1 (i + 2) rest
    else findAiStructLines (i + 1) rest

/-- Embedding of `find_ai_struct(filename)` (lines 4-32) over the file
content: the printed AI-struct block and the `analyzingMedications`
hits. -/
def find_ai_struct (content : String) :
    List (Nat × String) × List (Nat × String) :=
  (findAiStructLines 0 (pySplitLines content),
   ((pySplitLines content).enum.filter fun e =>
      containsSub e.2 "analyzingMedications").map
     (fun e => (e.1 + 1, pyStrip e.2)))

end FindAiStruct

/-- Path join of the walk components, for comparing discovered files with
the hardcoded path. -/
def joinPath (dirs : List String) (n : String) : String :=
  String.intercalate "/" (dirs ++ [n])

/-- C8 counterexample: find_ai_struct.py does not perform recursive file
discovery: on a root holding a single readable `A.swift`, the spec-side
recursive discovery (with the script\x27s empty exclusion set) finds exactly
`A.swift`, while the script scans exactly its hardcoded absolute
AppStrings.swift path — a different set. -/
theorem C8_uniform_discovery_counterexample :
    (specDiscovery [] [.file "A.swift" (some "")]).map
      (fun e => joinPath e.1 e.2.1) = ["A.swift"] ∧
    FindAiStruct.find_ai_struct_scanned [.file "A.swift" (some "")] =
      [FindAiStruct.target_path] ∧
    (["A.swift"] : List String) ≠ [FindAiStruct.target_path] := by
  refine ⟨?_, rfl, by decide⟩
  rw [show specDiscovery [] [.file "A.swift" (some "")] =
    [([], "A.swift", some "")] from by
      simp only [specDiscovery, enumAllFiles]
      rfl]
  rfl

/-- C8 (amended): the walking scripts\x27 file discovery matches the spec —
for analyze-force-unwrapping.py, the scanned set is exactly the recursive
enumeration restricted to `.swift` files with no excluded directory
(.build, DerivedData, .git) on the path — but find_ai_struct.py performs
no discovery at all: it reads exactly one hardcoded file. -/
theorem C8_file_discovery (root : List FSTree)
    (e : List String × String × Option String) :
    (e ∈ AnalyzeForceUnwrapping.analyze_project_scanned root ↔
      e ∈ specDiscovery AnalyzeForceUnwrapping.exclude_dirs root) ∧
    FindAiStruct.find_ai_struct_scanned root =
      [FindAiStruct.target_path] := by
  refine ⟨?_, rfl⟩
  rw [AnalyzeForceUnwrapping.analyze_project_scanned, specDiscovery]
  constructor
  · intro h
    obtain ⟨h1, h2⟩ := List.mem_filter.mp h
    obtain ⟨h3, h4⟩ :=
      (walkDir_eq_enum_filter AnalyzeForceUnwrapping.exclude_dirs []
        root e).mp h1
    refine List.mem_filter.mpr ⟨h3, ?_⟩
    simp only [List.length_nil, List.drop_zero] at h4
    simp only [Bool.and_eq_true]
    refine ⟨h2, ?_⟩
    simpa using h4
  · intro h
    obtain ⟨h1, h2⟩ := List.mem_filter.mp h
    simp only [Bool.and_eq_true] at h2
    refine List.mem_filter.mpr ⟨?_, h2.1⟩
    exact (walkDir_eq_enum_filter AnalyzeForceUnwrapping.exclude_dirs []
      root e).mpr ⟨h1, by simpa using h2.2⟩

namespace FixColorsFonts
/-
Embedding of src/fix-colors-fonts.py.  The per-file substitution composed
of `fix_colors`, `fix_fonts`, `fix_spacing` and `fix_corner_radius` only
determines WHICH text is written back, not whether the write-guard logic
holds, so it is abstracted as the `transform` parameter.
-/

/-- The protected files of `ColorFontFixer.__init__` (lines 20-25). -/
def protected_files : List String :=
  ["FirebaseManager.swift", "PhoneAuthView.swift", "LoginView.swift",
   "MedicationManagerApp.swift"]

/-- The pruned directories of `collect_swift_files` (line 105). -/
def exclude_dirs : List String := ["DerivedData", ".build", "Pods", ".git"]

/-- Embedding of `collect_swift_files` (lines 102-114): the pruning walk
restricted to `.swift` files whose name is NOT protected (the claims are
about the collected set; the source also sorts it). -/
def collect_swift_files (root : List FSTree) :
    List (List String × String × Option String) :=
  (walkDir exclude_dirs [] root).filter fun e =>
    pyEndsWith e.2.1 ".swift" && !protected_files.contains e.2.1

/-- Embedding of `process_file` (lines 116-144) over the file's read
result: a read failure is caught (printed) and nothing is written,
otherwise the transformed content is written back exactly when it differs
from the original. -/
def process_file (transform : String → String) (c : Option String) :
    Option String :=
  match c with
  | none => none
  | some content =>
    if transform content != content then some (transform content) else none

/-- The write trace of `fix_all` (lines 86-100). -/
def fix_all_writes (transform : String → String) (root : List FSTree) :
    List ((List String × String) × String) :=
  (collect_swift_files root).filterMap fun e =>
    (process_file transform e.2.2).map (fun c => ((e.1, e.2.1), c))

end FixColorsFonts

namespace FixStyleIssues
/-
Embedding of src/fix-style-issues.py; as for fix-colors-fonts.py, the
composed per-file substitution is abstracted as `transform`.
-/

/-- The protected files of `StyleFixer.__init__` (lines 24-29). -/
def protected_files : List String :=
  ["FirebaseManager.swift", "PhoneAuthView.swift", "LoginView.swift",
   "MedicationManagerApp.swift"]

/-- The pruned directories of `collect_swift_files` (line 61). -/
def exclude_dirs : List String :=
  ["DerivedData", ".build", "Pods", ".git", "build"]

/-- Embedding of `collect_swift_files` (lines 58-70): here the collection
does NOT exclude the protected files; `fix_all` filters them instead. -/
def collect_swift_files (root : List FSTree) :
    List (List String × String × Option String) :=
  (walkDir exclude_dirs [] root).filter fun e => pyEndsWith e.2.1 ".swift"

/-- Embedding of `process_file` (lines 72-95): a read failure is caught
and nothing is written, otherwise the transformed content is written back
exactly when it differs. -/
def process_file (transform : String → String) (c : Option String) :
    Option String :=
  match c with
  | none => none
  | some content =>
    if transform content != content then some (transform content) else none

/-- The write trace of `fix_all` (lines 41-56), whose loop skips the
protected names before calling `process_file`. -/
def fix_all_writes (transform : String → String) (root : List FSTree) :
    List ((List String × String) × String) :=
  (collect_swift_files root).filterMap fun e =>
    if protected_files.contains e.2.1 then none
    else (process_file transform e.2.2).map (fun c => ((e.1, e.2.1), c))

end FixStyleIssues

/-- C9 counterexample: the write-only-if-changed-and-unprotected frame
property fails for consolidate-strings.py: on a run whose ingested report
has no duplicates and whose only file on disk is an empty
CommonStrings.swift, the run nevertheless writes CommonStrings.swift
(`generate_app_strings` writes it unconditionally), although applying the
run's substitutions to the file's content leaves it unchanged. -/
theorem C9_write_conditions_counterexample :
    (ConsolidateStrings.commonStringsPath,
      ConsolidateStrings.common_strings_content []) ∈
      ConsolidateStrings.consolidate_run_writes []
        [(ConsolidateStrings.commonStringsPath, some "")] ∧
    ConsolidateStrings.transformContent
      (ConsolidateStrings.process_duplicates_replacements []) "" = "" :=
  ⟨List.mem_cons_self _ _, rfl⟩

/-- C9 (amended): the three per-file update routines write a file only if
its name is outside the script's protected set and the script's
substitutions change its content — for any substitution `transform` and
any tree, every write of fix-colors-fonts.py's and fix-style-issues.py's
`fix_all` and of consolidate-strings.py's `update_source_files` is to an
unprotected `.swift` file and writes the transformed content of the
original, different from it — but a consolidate-strings.py run
additionally always writes CommonStrings.swift through
`generate_app_strings`, regardless of that file's previous content. -/
theorem C9_write_conditions (transform : String → String)
    (root : List FSTree) (duplicates : List String)
    (files : List (String × Option String)) :
    (∀ (d : List String) (n : String) (c : String),
      ((d, n), c) ∈ FixColorsFonts.fix_all_writes transform root →
      FixColorsFonts.protected_files.contains n = false ∧
      ∃ orig, (d, n, some orig) ∈ walkDir FixColorsFonts.exclude_dirs []
          root ∧ c = transform orig ∧ c ≠ orig) ∧
    (∀ (d : List String) (n : String) (c : String),
      ((d, n), c) ∈ FixStyleIssues.fix_all_writes transform root →
      FixStyleIssues.protected_files.contains n = false ∧
      ∃ orig, (d, n, some orig) ∈ walkDir FixStyleIssues.exclude_dirs []
          root ∧ c = transform orig ∧ c ≠ orig) ∧
    (∀ (p c : String),
      (p, c) ∈ ConsolidateStrings.update_source_files_writes
        (ConsolidateStrings.process_duplicates_replacements duplicates)
        files →
      ConsolidateStrings.protected_files.contains p = false ∧
      ∃ orig, (p, some orig) ∈ files ∧
        c = ConsolidateStrings.transformContent
          (ConsolidateStrings.process_duplicates_replacements duplicates)
          orig ∧ c ≠ orig) ∧
    (ConsolidateStrings.commonStringsPath,
      ConsolidateStrings.common_strings_content duplicates) ∈
      ConsolidateStrings.consolidate_run_writes duplicates files := by
  refine ⟨fun d n c h => ?_, fun d n c h => ?_, fun p c h => ?_,
    List.mem_cons_self _ _⟩
  · obtain ⟨e, he, hmap⟩ := List.mem_filterMap.mp h
    obtain ⟨d0, n0, c0⟩ := e
    obtain ⟨hwalk, hflt⟩ := List.mem_filter.mp he
    simp at hflt
    rcases c0 with _ | orig
    · exact absurd hmap (by simp [FixColorsFonts.process_file])
    · have hmap2 : ((if (transform orig != orig) = true
          then some (transform orig) else none).map
            (fun c => ((d0, n0), c))) = some ((d, n), c) := hmap
      split at hmap2
      · rename_i hne
        simp only [Option.map_some', Option.some.injEq, Prod.mk.injEq]
          at hmap2
        obtain ⟨⟨rfl, rfl⟩, hcw⟩ := hmap2
        refine ⟨by simpa using hflt.2, orig, hwalk, by rw [hcw], ?_⟩
        rw [← hcw]
        simpa using hne
      · simp at hmap2
  · obtain ⟨e, he, hmap⟩ := List.mem_filterMap.mp h
    obtain ⟨d0, n0, c0⟩ := e
    obtain ⟨hwalk, -⟩ := List.mem_filter.mp he
    split at hmap
    · simp at hmap
    · rename_i hprot
      rcases c0 with _ | orig
      · exact absurd hmap (by simp [FixStyleIssues.process_file])
      · have hmap2 : ((if (transform orig != orig) = true
            then some (transform orig) else none).map
              (fun c => ((d0, n0), c))) = some ((d, n), c) := hmap
        split at hmap2
        · rename_i hne
          simp only [Option.map_some', Option.some.injEq, Prod.mk.injEq]
            at hmap2
          obtain ⟨⟨rfl, rfl⟩, hcw⟩ := hmap2
          refine ⟨by simpa using hprot, orig, hwalk, by rw [hcw], ?_⟩
          rw [← hcw]
          simpa using hne
        · simp at hmap2
  · rw [ConsolidateStrings.update_source_files_writes] at h
    obtain ⟨e, he, hmem⟩ := List.mem_flatMap.mp h
    obtain ⟨p0, c0⟩ := e
    split at hmem
    · rename_i hcond
      simp only [Bool.and_eq_true] at hcond
      rcases c0 with _ | orig
      · simp at hmem
      · have hmem2 : (p, c) ∈ (if (ConsolidateStrings.transformContent
            (ConsolidateStrings.process_duplicates_replacements duplicates)
              orig != orig) = true
          then [(p0, ConsolidateStrings.transformContent
            (ConsolidateStrings.process_duplicates_replacements duplicates)
              orig)]
          else []) := hmem
        split at hmem2
        · rename_i hne
          simp only [List.mem_singleton, Prod.mk.injEq] at hmem2
          obtain ⟨rfl, hcw⟩ := hmem2
          refine ⟨by simpa using hcond.2, orig, he, hcw, ?_⟩
          rw [hcw]
          simpa using hne
        · simp at hmem2
    · simp at hmem

/-- Witness for C9: a concrete changed file actually written by
fix-colors-fonts.py, with the theorem applied to it. -/
theorem C9_write_conditions_witness :
    ((([], "A.swift"), "y") ∈ FixColorsFonts.fix_all_writes (fun _ => "y")
      [.file "A.swift" (some "x")]) ∧
    (FixColorsFonts.protected_files.contains "A.swift" = false ∧
      ∃ orig, ([], "A.swift", some orig) ∈
          walkDir FixColorsFonts.exclude_dirs [] [.file "A.swift" (some "x")] ∧
        "y" = (fun (_ : String) => "y") orig ∧ "y" ≠ orig) := by
  have hmem : (([], "A.swift"), "y") ∈ FixColorsFonts.fix_all_writes
      (fun _ => "y") [.file "A.swift" (some "x")] := by
    refine List.mem_filterMap.mpr ⟨([], "A.swift", some "x"), ?_, rfl⟩
    refine List.mem_filter.mpr ⟨?_, by decide⟩
    rw [show walkDir FixColorsFonts.exclude_dirs []
        [.file "A.swift" (some "x")] = [([], "A.swift", some "x")] from by
      simp [walkDir]]
    exact List.mem_singleton.mpr rfl
  exact ⟨hmem, (C9_write_conditions (fun _ => "y")
    [.file "A.swift" (some "x")] [] []).1 [] "A.swift" "y" hmem⟩

/-- Embedding of `tuple(sorted([a, b]))`: the unordered pair in sorted
order. -/
def pairKey (a b : String) : String × String :=
  if a ≤ b then (a, b) else (b, a)

/-- Two pairs with the same sorted key and distinct components are the
same unordered pair. -/
theorem pairKey_cases {a b A B : String} (h : pairKey a b = pairKey A B) :
    (a = A ∧ b = B) ∨ (a = B ∧ b = A) := by
  rw [pairKey, pairKey] at h
  split at h <;> split at h <;>
    simp only [Prod.mk.injEq] at h <;>
    obtain ⟨h1, h2⟩ := h <;> subst h1 <;> subst h2 <;> simp

/-- With distinct keys, the association lookup finds the unique entry. -/
theorem depsGet_eq (g : List (String × List String))
    (hnd : (g.map Prod.fst).Nodup) (n : String) (l : List String)
    (h : (n, l) ∈ g) : depsGet g n = l := by
  induction g with
  | nil => simp at h
  | cons hd tl ih =>
    obtain ⟨m, lm⟩ := hd
    simp only [List.map_cons, List.nodup_cons] at hnd
    rcases List.mem_cons.mp h with heq | hmem
    · rw [Prod.mk.injEq] at heq
      obtain ⟨rfl, rfl⟩ := heq
      simp [depsGet]
    · by_cases hmn : m = n
      · subst hmn
        exact absurd (List.mem_map.mpr ⟨(m, l), hmem, rfl⟩) hnd.1
      · rw [depsGet, List.find?_cons_of_neg _ (by simpa using hmn)]
        rw [depsGet] at ih
        exact ih hnd.2 hmem

/-- Length of a filtered flat map, summed item by item. -/
theorem filter_flatMap_length {α β : Type} (p : β → Bool) (f : α → List β)
    (l : List α) :
    ((l.flatMap f).filter p).length =
      (l.map (fun x => ((f x).filter p).length)).sum := by
  induction l with
  | nil => simp
  | cons a t ih => simp [List.flatMap_cons, List.filter_append, ih]

namespace AnalyzeCircularDepsHyphen
/-
Embedding of src/analyze-circular-deps.py (hyphen variant), section 3 of
`analyze_dependencies` (lines 131-137).
-/

/-- The inner loop of the simple cycle check: for each `file_b` among the
dependencies of `file_a`, the pair is printed when `file_b` is a key of
the graph, `file_a` is among its dependencies, and `file_a < file_b` (the
guard avoiding duplicate reporting). -/
def printedInner (g : List (String × List String)) (file_a : String)
    (deps_a : List String) : List (String × String) :=
  deps_a.filterMap fun file_b =>
    if (g.any fun q => q.1 == file_b) &&
        (depsGet g file_b).contains file_a && decide (file_a < file_b) then
      some (file_a, file_b)
    else none

/-- The mutual pairs printed by the simple cycle check of
`analyze_dependencies`. -/
def printed_mutual_pairs (g : List (String × List String)) :
    List (String × String) :=
  g.flatMap fun e => printedInner g e.1 e.2

/-- How often the inner loop prints a pair with a given sorted key: never,
when the loop file is neither component. -/
theorem printedInner_cnt_other (g : List (String × List String))
    (A B k : String) (hkA : k ≠ A) (hkB : k ≠ B) (dk : List String) :
    ((printedInner g k dk).filter
      (fun e => pairKey e.1 e.2 == pairKey A B)).length = 0 := by
  induction dk with
  | nil => simp [printedInner]
  | cons b rest ih =>
    rw [printedInner] at ih ⊢
    by_cases hg : ((g.any fun q => q.1 == b) &&
        (depsGet g b).contains k && decide (k < b)) = true
    · rw [List.filterMap_cons_some (by rw [if_pos hg])]
      rw [List.filter_cons]
      split
      · rename_i hmatch
        simp only [beq_iff_eq] at hmatch
        rcases pairKey_cases hmatch with ⟨h1, -⟩ | ⟨h1, -⟩
        · exact absurd h1 hkA
        · exact absurd h1 hkB
      · exact ih
    · rw [List.filterMap_cons_none (by rw [if_neg hg])]
      exact ih

/-- How often the inner loop of the `A` entry prints the `(A, B)` key:
never, when `B` is not among the scanned dependencies. -/
theorem printedInner_cnt_A_noB (g : List (String × List String))
    (A B : String) (hab : A ≠ B) (dk : List String) (hB : B ∉ dk) :
    ((printedInner g A dk).filter
      (fun e => pairKey e.1 e.2 == pairKey A B)).length = 0 := by
  induction dk with
  | nil => simp [printedInner]
  | cons b rest ih =>
    simp only [List.mem_cons, not_or] at hB
    rw [printedInner] at ih ⊢
    by_cases hg : ((g.any fun q => q.1 == b) &&
        (depsGet g b).contains A && decide (A < b)) = true
    · rw [List.filterMap_cons_some (by rw [if_pos hg])]
      rw [List.filter_cons]
      split
      · rename_i hmatch
        simp only [beq_iff_eq] at hmatch
        rcases pairKey_cases hmatch with ⟨-, h2⟩ | ⟨h1, -⟩
        · exact absurd h2.symm hB.1
        · exact absurd h1 hab
      · exact ih hB.2
    · rw [List.filterMap_cons_none (by rw [if_neg hg])]
      exact ih hB.2

/-- How often the inner loop of the `A` entry prints the `(A, B)` key:
exactly when `A < B`, given that the pair is mutual (here: `B` is a key
and `A` is among its dependencies) and `B` occurs once among the scanned
dependencies. -/
theorem printedInner_cnt_A (g : List (String × List String))
    (A B : String) (hab : A ≠ B) (hkey : (g.any fun q => q.1 == B) = true)
    (hmut : (depsGet g B).contains A = true)
    (dk : List String) (hnd : dk.Nodup) (hB : B ∈ dk) :
    ((printedInner g A dk).filter
      (fun e => pairKey e.1 e.2 == pairKey A B)).length =
      if A < B then 1 else 0 := by
  induction dk with
  | nil => simp at hB
  | cons b rest ih =>
    simp only [List.nodup_cons] at hnd
    rw [printedInner] at ih ⊢
    rcases List.mem_cons.mp hB with heq | hB'
    · subst heq
      have hrest := printedInner_cnt_A_noB g A B hab rest hnd.1
      rw [printedInner] at hrest
      by_cases hlt : A < B
      · rw [List.filterMap_cons_some (by
          rw [if_pos (by
            rw [Bool.and_eq_true, Bool.and_eq_true]
            exact ⟨⟨hkey, hmut⟩, decide_eq_true hlt⟩)])]
        rw [List.filter_cons, if_pos (by simp)]
        rw [List.length_cons, hrest, if_pos hlt]
      · rw [List.filterMap_cons_none (by
          rw [if_neg (fun hc =>
            hlt (of_decide_eq_true (by rw [Bool.and_eq_true] at hc; exact hc.2)))])]
        rw [hrest, if_neg hlt]
    · have hbB : b ≠ B := by
        intro h
        subst h
        exact hnd.1 hB'
      by_cases hg : ((g.any fun q => q.1 == b) &&
          (depsGet g b).contains A && decide (A < b)) = true
      · rw [List.filterMap_cons_some (by rw [if_pos hg])]
        rw [List.filter_cons]
        split
        · rename_i hmatch
          simp only [beq_iff_eq] at hmatch
          rcases pairKey_cases hmatch with ⟨-, h2⟩ | ⟨h1, -⟩
          · exact absurd h2 hbB
          · exact absurd h1 hab
        · exact ih hnd.2 hB'
      · rw [List.filterMap_cons_none (by rw [if_neg hg])]
        exact ih hnd.2 hB'

end AnalyzeCircularDepsHyphen

/-- The sorted pair key is symmetric in its two components. -/
theorem pairKey_comm (a b : String) : pairKey a b = pairKey b a := by
  rw [pairKey, pairKey]
  rcases le_or_lt a b with h | h
  · by_cases h2 : b ≤ a
    · rw [if_pos h, if_pos h2, le_antisymm h h2]
    · rw [if_pos h, if_neg h2]
  · rw [if_neg (not_le.mpr h), if_pos h.le]

/-- Summing a per-entry count over an association list with pairwise
distinct keys, when the count vanishes away from one key: only that key
contributes. -/
theorem sum_assoc_single (F : String × List String → Nat) (k0 : String)
    (d0 : List String) (entries : List (String × List String))
    (hnd : (entries.map Prod.fst).Nodup) (hmem : (k0, d0) ∈ entries)
    (hz : ∀ e ∈ entries, e.1 ≠ k0 → F e = 0) :
    (entries.map F).sum = F (k0, d0) := by
  induction entries with
  | nil => simp at hmem
  | cons e rest ih =>
    simp only [List.map_cons, List.nodup_cons] at hnd
    rw [List.map_cons, List.sum_cons]
    rcases List.mem_cons.mp hmem with heq | hmem'
    · have hkey : e.1 = k0 := by rw [← heq]
      have hz0 : (rest.map F).sum = 0 := by
        apply List.sum_eq_zero
        intro x hx
        obtain ⟨e2, he2, rfl⟩ := List.mem_map.mp hx
        refine hz e2 (List.mem_cons_of_mem _ he2) (fun hk => hnd.1 ?_)
        exact List.mem_map.mpr ⟨e2, he2, hk.trans hkey.symm⟩
      rw [hz0, ← heq]
      omega
    · have hek : e.1 ≠ k0 := fun hk =>
        hnd.1 (List.mem_map.mpr ⟨(k0, d0), hmem', hk.symm⟩)
      rw [hz e (List.mem_cons_self e rest) hek,
        ih hnd.2 hmem' (fun e2 he2 => hz e2 (List.mem_cons_of_mem _ he2))]
      omega

/-- Summing a per-entry count over an association list with pairwise
distinct keys, when the count vanishes away from two keys: only those two
entries contribute. -/
theorem sum_assoc_pair (F : String × List String → Nat) (A B : String)
    (la lb : List String) (hab : A ≠ B)
    (entries : List (String × List String))
    (hnd : (entries.map Prod.fst).Nodup)
    (hA : (A, la) ∈ entries) (hB : (B, lb) ∈ entries)
    (hz : ∀ e ∈ entries, e.1 ≠ A → e.1 ≠ B → F e = 0) :
    (entries.map F).sum = F (A, la) + F (B, lb) := by
  induction entries with
  | nil => simp at hA
  | cons e rest ih =>
    simp only [List.map_cons, List.nodup_cons] at hnd
    rw [List.map_cons, List.sum_cons]
    rcases List.mem_cons.mp hA with heqA | hA'
    · have hkeyA : e.1 = A := by rw [← heqA]
      have heB : (B, lb) ∈ rest := by
        rcases List.mem_cons.mp hB with heqB | h
        · exact absurd (congrArg Prod.fst (heqB.trans heqA.symm))
            (Ne.symm hab)
        · exact h
      have hz1 : ∀ e2 ∈ rest, e2.1 ≠ B → F e2 = 0 := by
        intro e2 he2 hne
        by_cases hA2 : e2.1 = A
        · exact absurd (List.mem_map.mpr ⟨e2, he2, hA2.trans hkeyA.symm⟩)
            hnd.1
        · exact hz e2 (List.mem_cons_of_mem _ he2) hA2 hne
      rw [sum_assoc_single F B lb rest hnd.2 heB hz1, ← heqA]
    · rcases List.mem_cons.mp hB with heqB | hB'
      · have hkeyB : e.1 = B := by rw [← heqB]
        have hz1 : ∀ e2 ∈ rest, e2.1 ≠ A → F e2 = 0 := by
          intro e2 he2 hne
          by_cases hB2 : e2.1 = B
          · exact absurd (List.mem_map.mpr ⟨e2, he2, hB2.trans hkeyB.symm⟩)
              hnd.1
          · exact hz e2 (List.mem_cons_of_mem _ he2) hne hB2
        rw [sum_assoc_single F A la rest hnd.2 hA' hz1, ← heqB]
        omega
      · have hne1 : e.1 ≠ A := fun hk =>
          hnd.1 (List.mem_map.mpr ⟨(A, la), hA', hk.symm⟩)
        have hne2 : e.1 ≠ B := fun hk =>
          hnd.1 (List.mem_map.mpr ⟨(B, lb), hB', hk.symm⟩)
        rw [hz e (List.mem_cons_self e rest) hne1 hne2,
          ih hnd.2 hA' hB' (fun e2 he2 => hz e2 (List.mem_cons_of_mem _ he2))]
        omega

namespace AnalyzeCircularDepsHyphen

/-- A mutual pair of distinct files, each a key of the dependency graph
and each among the other one's scanned dependencies, is printed exactly
once by the simple cycle check. -/
theorem printed_mutual_pairs_cnt (g : List (String × List String))
    (A B : String) (la lb : List String) (hab : A ≠ B)
    (hnd : (g.map Prod.fst).Nodup) (hla : la.Nodup) (hlb : lb.Nodup)
    (hA : (A, la) ∈ g) (hB : (B, lb) ∈ g)
    (hBla : B ∈ la) (hAlb : A ∈ lb) :
    ((printed_mutual_pairs g).filter
      (fun e => pairKey e.1 e.2 == pairKey A B)).length = 1 := by
  have hkeyB : (g.any fun q => q.1 == B) = true :=
    List.any_eq_true.mpr ⟨(B, lb), hB, by simp⟩
  have hkeyA : (g.any fun q => q.1 == A) = true :=
    List.any_eq_true.mpr ⟨(A, la), hA, by simp⟩
  have hmutB : (depsGet g B).contains A = true := by
    rw [depsGet_eq g hnd B lb hB]; simpa using hAlb
  have hmutA : (depsGet g A).contains B = true := by
    rw [depsGet_eq g hnd A la hA]; simpa using hBla
  have hsum := sum_assoc_pair
    (fun e => ((printedInner g e.1 e.2).filter
      (fun x => pairKey x.1 x.2 == pairKey A B)).length)
    A B la lb hab g hnd hA hB
    (fun e _ hne1 hne2 => printedInner_cnt_other g A B e.1 hne1 hne2 e.2)
  rw [printed_mutual_pairs, filter_flatMap_length, hsum]
  have h1 := printedInner_cnt_A g A B hab hkeyB hmutB la hla hBla
  have h2 := printedInner_cnt_A g B A (Ne.symm hab) hkeyA hmutA lb hlb hAlb
  simp only [show pairKey B A = pairKey A B from pairKey_comm B A] at h2
  rcases lt_trichotomy A B with hlt | heq | hgt
  · rw [if_pos hlt] at h1
    rw [if_neg (asymm hlt)] at h2
    simp [h1, h2]
  · exact absurd heq hab
  · rw [if_neg (asymm hgt)] at h1
    rw [if_pos hgt] at h2
    simp [h1, h2]

end AnalyzeCircularDepsHyphen

namespace AnalyzeCircularDeps
/-
Embedding of src/analyze_circular_deps.py, `find_circular_dependencies`
section "Find circular dependencies" (lines 100-119): the outer loop runs
over the `dependencies` items, the inner loop over each entry's
dependency set; the sorted pair is skipped when already in
`checked_pairs`, otherwise added to `checked_pairs` and, when the reverse
dependency also holds, the pair is appended to `circular_deps` (each
appended record abstracted to its `files` pair).
-/

/-- The inner loop over `deps_a` for one `file_a`, threading the
`checked_pairs` set; returns the final `checked_pairs` and the appended
pairs. -/
def fcdInner (g : List (String × List String))
    (checked : List (String × String)) (file_a : String) :
    List String → List (String × String) × List (String × String)
  | [] => (checked, [])
  | file_b :: rest =>
    if pairKey file_a file_b ∈ checked then
      fcdInner g checked file_a rest
    else
      ((fcdInner g (pairKey file_a file_b :: checked) file_a rest).1,
        (if (depsGet g file_b).contains file_a then
          [(file_a, file_b)] else []) ++
        (fcdInner g (pairKey file_a file_b :: checked) file_a rest).2)

/-- The outer loop over the `dependencies` items. -/
def fcdOuter (g : List (String × List String))
    (checked : List (String × String)) :
    List (String × List String) →
      List (String × String) × List (String × String)
  | [] => (checked, [])
  | e :: rest =>
    ((fcdOuter g (fcdInner g checked e.1 e.2).1 rest).1,
      (fcdInner g checked e.1 e.2).2 ++
        (fcdOuter g (fcdInner g checked e.1 e.2).1 rest).2)

/-- The circular-dependency pairs appended by
`find_circular_dependencies`, starting from an empty `checked_pairs`. -/
def find_circular_dependencies (g : List (String × List String)) :
    List (String × String) :=
  (fcdOuter g [] g).2

/-- Keys already in `checked_pairs` stay there through the inner loop. -/
theorem fcdInner_checked_mono (g : List (String × List String))
    (k : String) (K : String × String) (d : List String) :
    ∀ checked, K ∈ checked → K ∈ (fcdInner g checked k d).1 := by
  induction d with
  | nil =>
    intro checked h
    simpa [fcdInner] using h
  | cons b rest ih =>
    intro checked h
    rw [fcdInner]
    by_cases hc : pairKey k b ∈ checked
    · rw [if_pos hc]
      exact ih checked h
    · rw [if_neg hc]
      exact ih _ (List.mem_cons_of_mem _ h)

/-- Scanning a dependency list containing `B` puts the `(A, B)` key into
`checked_pairs`. -/
theorem fcdInner_checked_hit (g : List (String × List String))
    (A B : String) (d : List String) :
    ∀ checked, B ∈ d → pairKey A B ∈ (fcdInner g checked A d).1 := by
  induction d with
  | nil =>
    intro checked h
    simp at h
  | cons b rest ih =>
    intro checked hBd
    rw [fcdInner]
    by_cases hc : pairKey A b ∈ checked
    · rw [if_pos hc]
      rcases List.mem_cons.mp hBd with heq | hmem
      · exact fcdInner_checked_mono g A _ rest checked
          (by rw [heq]; exact hc)
      · exact ih checked hmem
    · rw [if_neg hc]
      rcases List.mem_cons.mp hBd with heq | hmem
      · exact fcdInner_checked_mono g A _ rest _
          (by rw [heq]; exact List.mem_cons_self _ _)
      · exact ih _ hmem

/-- One inner-loop pass appends an `(A, B)`-keyed pair exactly when the
key newly enters `checked_pairs`, for a mutual pair: the appended count
plus the prior key indicator equals the posterior key indicator. -/
theorem fcdInner_cnt (g : List (String × List String)) (A B : String)
    (hab : A ≠ B) (hmutB : (depsGet g B).contains A = true)
    (hmutA : (depsGet g A).contains B = true) (k : String)
    (d : List String) :
    ∀ checked,
      ((fcdInner g checked k d).2.filter
        (fun e => pairKey e.1 e.2 == pairKey A B)).length +
      (if pairKey A B ∈ checked then 1 else 0) =
      (if pairKey A B ∈ (fcdInner g checked k d).1 then 1 else 0) := by
  induction d with
  | nil =>
    intro checked
    simp [fcdInner]
  | cons b rest ih =>
    intro checked
    rw [fcdInner]
    by_cases hc : pairKey k b ∈ checked
    · rw [if_pos hc]
      exact ih checked
    · rw [if_neg hc]
      dsimp only
      rw [List.filter_append, List.length_append]
      have ih2 := ih (pairKey k b :: checked)
      by_cases hkey : pairKey k b = pairKey A B
      · have hc0 : ¬ pairKey A B ∈ checked := by
          rw [← hkey]
          exact hc
        rw [if_neg hc0]
        rw [if_pos (List.mem_cons.mpr (Or.inl hkey.symm))] at ih2
        rcases pairKey_cases hkey with ⟨rfl, rfl⟩ | ⟨rfl, rfl⟩
        · have hhit : (List.filter
              (fun e => pairKey e.1 e.2 == pairKey k b)
              (if (depsGet g b).contains k = true then [(k, b)]
               else [])).length = 1 := by
            rw [if_pos hmutB]
            simp
          omega
        · have hhit : (List.filter
              (fun e => pairKey e.1 e.2 == pairKey b k)
              (if (depsGet g b).contains k = true then [(k, b)]
               else [])).length = 1 := by
            rw [if_pos hmutA]
            simp [pairKey_comm k b]
          omega
      · have hhit0 : (List.filter
            (fun e => pairKey e.1 e.2 == pairKey A B)
            (if (depsGet g b).contains k = true then [(k, b)]
             else [])).length = 0 := by
          split
          · simp [hkey]
          · simp
        by_cases hK : pairKey A B ∈ checked
        · rw [if_pos hK]
          rw [if_pos (List.mem_cons_of_mem _ hK)] at ih2
          omega
        · rw [if_neg hK]
          rw [if_neg (fun h => by
            rcases List.mem_cons.mp h with h | h
            · exact hkey h.symm
            · exact hK h)] at ih2
          omega

/-- Keys already in `checked_pairs` stay there through the outer loop. -/
theorem fcdOuter_checked_mono (g : List (String × List String))
    (K : String × String) (entries : List (String × List String)) :
    ∀ checked, K ∈ checked → K ∈ (fcdOuter g checked entries).1 := by
  induction entries with
  | nil =>
    intro checked h
    simpa [fcdOuter] using h
  | cons e rest ih =>
    intro checked h
    rw [fcdOuter]
    exact ih _ (fcdInner_checked_mono g e.1 K e.2 checked h)

/-- Processing an entry whose dependency list contains `B` puts the
`(A, B)` key into `checked_pairs` for good. -/
theorem fcdOuter_checked_hit (g : List (String × List String))
    (A B : String) (la : List String) (hBla : B ∈ la)
    (entries : List (String × List String)) :
    ∀ checked, (A, la) ∈ entries →
      pairKey A B ∈ (fcdOuter g checked entries).1 := by
  induction entries with
  | nil =>
    intro checked h
    simp at h
  | cons e rest ih =>
    intro checked hmem
    rw [fcdOuter]
    rcases List.mem_cons.mp hmem with heq | hmem'
    · refine fcdOuter_checked_mono g _ rest _ ?_
      rw [← heq]
      exact fcdInner_checked_hit g A B la checked hBla
    · exact ih _ hmem'

/-- The whole outer loop appends an `(A, B)`-keyed pair exactly when the
key newly enters `checked_pairs`. -/
theorem fcdOuter_cnt (g : List (String × List String)) (A B : String)
    (hab : A ≠ B) (hmutB : (depsGet g B).contains A = true)
    (hmutA : (depsGet g A).contains B = true)
    (entries : List (String × List String)) :
    ∀ checked,
      ((fcdOuter g checked entries).2.filter
        (fun e => pairKey e.1 e.2 == pairKey A B)).length +
      (if pairKey A B ∈ checked then 1 else 0) =
      (if pairKey A B ∈ (fcdOuter g checked entries).1 then 1 else 0) := by
  induction entries with
  | nil =>
    intro checked
    simp [fcdOuter]
  | cons e rest ih =>
    intro checked
    rw [fcdOuter]
    dsimp only
    rw [List.filter_append, List.length_append]
    have h1 := fcdInner_cnt g A B hab hmutB hmutA e.1 e.2 checked
    have h2 := ih (fcdInner g checked e.1 e.2).1
    omega

/-- A mutual pair of distinct files, each a key of the dependency graph
and each among the other one's dependencies, is appended to
`circular_deps` exactly once. -/
theorem find_circular_dependencies_cnt (g : List (String × List String))
    (A B : String) (la lb : List String) (hab : A ≠ B)
    (hnd : (g.map Prod.fst).Nodup)
    (hA : (A, la) ∈ g) (hB : (B, lb) ∈ g)
    (hBla : B ∈ la) (hAlb : A ∈ lb) :
    ((find_circular_dependencies g).filter
      (fun e => pairKey e.1 e.2 == pairKey A B)).length = 1 := by
  have hmutB : (depsGet g B).contains A = true := by
    rw [depsGet_eq g hnd B lb hB]; simpa using hAlb
  have hmutA : (depsGet g A).contains B = true := by
    rw [depsGet_eq g hnd A la hA]; simpa using hBla
  have h := fcdOuter_cnt g A B hab hmutB hmutA g []
  have hfin := fcdOuter_checked_hit g A B la hBla g [] hA
  rw [find_circular_dependencies]
  rw [if_neg (List.not_mem_nil _), if_pos hfin] at h
  omega

end AnalyzeCircularDeps

/-- C10: mutual-dependency pairs are deduplicated. For every dependency
graph with pairwise distinct keys (a Python dict) and set-like dependency
lists, and every unordered pair of distinct names {A, B} with A
depending on B and B depending on A, analyze_circular_deps.py's
`find_circular_dependencies` appends exactly one entry for the pair to
`circular_deps` (via `checked_pairs`), and analyze-circular-deps.py's
simple cycle check prints the pair exactly once (via the
`file_a < file_b` guard), regardless of the order of the graph's
entries. -/
theorem C10_pair_deduplication (g : List (String × List String))
    (A B : String) (la lb : List String) (hab : A ≠ B)
    (hnd : (g.map Prod.fst).Nodup) (hla : la.Nodup) (hlb : lb.Nodup)
    (hA : (A, la) ∈ g) (hB : (B, lb) ∈ g)
    (hBla : B ∈ la) (hAlb : A ∈ lb) :
    ((AnalyzeCircularDeps.find_circular_dependencies g).filter
      (fun e => pairKey e.1 e.2 == pairKey A B)).length = 1 ∧
    ((AnalyzeCircularDepsHyphen.printed_mutual_pairs g).filter
      (fun e => pairKey e.1 e.2 == pairKey A B)).length = 1 :=
  ⟨AnalyzeCircularDeps.find_circular_dependencies_cnt g A B la lb hab hnd
      hA hB hBla hAlb,
    AnalyzeCircularDepsHyphen.printed_mutual_pairs_cnt g A B la lb hab hnd
      hla hlb hA hB hBla hAlb⟩

/-- Concrete check of C10 on the two-node mutual graph. -/
theorem C10_pair_deduplication_witness :
    ("A" : String) ≠ "B" ∧
    (((AnalyzeCircularDeps.find_circular_dependencies
        [("A", ["B"]), ("B", ["A"])]).filter
      (fun e => pairKey e.1 e.2 == pairKey "A" "B")).length = 1 ∧
    ((AnalyzeCircularDepsHyphen.printed_mutual_pairs
        [("A", ["B"]), ("B", ["A"])]).filter
      (fun e => pairKey e.1 e.2 == pairKey "A" "B")).length = 1) :=
  ⟨by decide,
    C10_pair_deduplication [("A", ["B"]), ("B", ["A"])] "A" "B"
      ["B"] ["A"] (by decide) (by decide) (by decide) (by decide)
      (by decide) (by decide) (by decide) (by decide)⟩

end Mango
